import Mathlib

/-!
Shallow embedding of the provider-failover orchestrator
(`FailoverManager.sendWithFailover` / `FailoverManager.tryProvider`) of the
nodemail repository.

Modelling notes.
* A transport is modelled as an oracle `μ → Nat → SendResult`: given the
  outbound message and the attempt index within one `tryProvider` call, it
  either resolves with a `MailResponse` or throws with an error message
  (`SendResult.exn`).  The orchestrator never inspects the message; it is
  threaded through unchanged.
* `durationMs` (a wall-clock delta around each `send`) and the event
  `timestamp` (`new Date().toISOString()`) are real-time values with no
  control-flow influence; they are omitted from the records.  The
  `retryDelay` / `failoverDelay` sleeps likewise have no observable effect
  in a time-free semantics and are kept in the config only for shape.
* Beyond the returned `MailResponse`, the embedding logs every observable
  interaction: attempt records pushed (`attempts`), resolver invocations
  with their outcome (`resolved`), `onFailover` events fired (`events`) and
  every `provider.send` invocation (`sends`).  Each `send` call in the
  source pushes exactly one attempt record, and each resolver call is
  logged whether it throws or not.
* JavaScript truthiness of `lastResponse.error` (an empty string is falsy)
  is modelled by `strTruthy`; the nullish coalescing `?? 'Unknown error'`
  by `Option.getD`.
* `maxRetriesPerProvider` is an `Int` so that out-of-contract values
  (zero, negative) behave exactly like the `for` loop of the source:
  `Int.toNat` iterations.
-/

namespace Nodemail

/-- The raw result of one transport `send`: `{ success, error?, messageId? }`. -/
structure MailResponse where
  success : Bool
  error : Option String := none
  messageId : Option String := none
deriving Repr, DecidableEq

/-- One invocation of `provider.send` either resolves with a response or
throws; `exn m` carries the exception's message. -/
inductive SendResult where
  | ret (r : MailResponse)
  | exn (m : String)
deriving Repr, DecidableEq

/-- A transport: behavior of `send` as a function of the message and of the
attempt index within the current `tryProvider` call. -/
def Transport (μ : Type) : Type := μ → Nat → SendResult

/-- One attempt record (`FailoverDetail` in the source); `durationMs` is
wall-clock timing and is omitted. -/
structure FailoverDetail where
  mailer : String
  success : Bool
  error : Option String := none
deriving Repr, DecidableEq

/-- The event passed to `onFailover`; the real-time `timestamp` field is
omitted. -/
structure FailoverEvent where
  failedMailer : String
  error : String
  nextMailer : String
  attemptIndex : Nat
deriving Repr, DecidableEq

/-- The failover policy (`FailoverConfig` in the source).  The callback may
throw (`Except.error`); its result is always discarded by the orchestrator.
The two delay fields only cause sleeps and have no observable effect. -/
structure FailoverConfig where
  chain : List String
  maxRetriesPerProvider : Option Int := none
  retryDelay : Option Int := none
  failoverDelay : Option Int := none
  onFailover : Option (FailoverEvent → Except String Unit) := none

/-- The final result of `sendWithFailover`: the last response spread with
provenance fields. -/
structure FinalResult where
  success : Bool
  error : Option String
  messageId : Option String
  provider : String
  failoverUsed : Bool
  failoverAttempts : List FailoverDetail
deriving Repr, DecidableEq

/-- Observable interaction log of one orchestration call. -/
structure OrchState where
  attempts : List FailoverDetail
  resolved : List (String × Bool)
  events : List FailoverEvent
  sends : List (String × Nat)
deriving Repr, DecidableEq

/-- The empty log at the start of an orchestration call. -/
def OrchState.empty : OrchState := ⟨[], [], [], []⟩

/-- Result of a whole `sendWithFailover` call: the `FinalResult` together
with the interaction log. -/
structure RunResult where
  result : FinalResult
  resolved : List (String × Bool)
  events : List FailoverEvent
  sends : List (String × Nat)
deriving Repr, DecidableEq

/-- JavaScript truthiness of an optional string: present and non-empty. -/
def strTruthy : Option String → Bool
  | none => false
  | some s => !(s == "")

/-- The attempt record pushed in the `try` branch of `tryProvider`:
`{ mailer, success, durationMs }`, with `error` added only when the
response failed with a truthy error. -/
def mkDetail (name : String) (resp : MailResponse) : FailoverDetail :=
  { mailer := name
    success := resp.success
    error := if !resp.success && strTruthy resp.error then resp.error else none }

/-- The response a caller of `tryProvider` observes for one `send`
invocation: the resolved response, or the failed response the `catch`
branch substitutes for a throw. -/
def retOf : SendResult → MailResponse
  | SendResult.ret r => r
  | SendResult.exn m => { success := false, error := some m }

/-- The `for (attempt = 0; attempt < maxRetries; attempt++)` loop of
`tryProvider`, with `fuel` the number of remaining iterations and
`attempt` the current index.  Each iteration invokes `provider.send`
(logged in `sends`), pushes one attempt record, returns immediately on a
successful response, and otherwise continues with the failed (or
exception-substituted) response as `lastResponse`. -/
def tryProviderLoop {μ : Type} (provider : Transport μ) (msg : μ) (name : String) :
    Nat → Nat → MailResponse → OrchState → MailResponse × OrchState
  | 0, _, lastResponse, st => (lastResponse, st)
  | Nat.succ fuel, attempt, _, st =>
    let st1 : OrchState := { st with sends := st.sends ++ [(name, attempt)] }
    match provider msg attempt with
    | SendResult.ret resp =>
      let st2 : OrchState := { st1 with attempts := st1.attempts ++ [mkDetail name resp] }
      if resp.success then (resp, st2)
      else tryProviderLoop provider msg name fuel (attempt + 1) resp st2
    | SendResult.exn m =>
      let resp : MailResponse := { success := false, error := some m }
      let st2 : OrchState :=
        { st1 with attempts := st1.attempts ++ [⟨name, false, some m⟩] }
      tryProviderLoop provider msg name fuel (attempt + 1) resp st2

/-- `FailoverManager.tryProvider`: try one provider up to `maxRetries`
times, starting from `lastResponse = { success: false, error: 'No attempts
made' }`. -/
def tryProvider {μ : Type} (provider : Transport μ) (msg : μ) (name : String)
    (maxRetries : Int) (st : OrchState) : MailResponse × OrchState :=
  tryProviderLoop provider msg name maxRetries.toNat 0
    { success := false, error := some "No attempts made" } st

/-- The chain-walk loop of `sendWithFailover` (`for (const chainName of
failoverConfig.chain)`).  A chain entry equal to the primary is skipped; a
name the resolver rejects is skipped (the resolution attempt is logged);
otherwise an `onFailover` event is fired when a callback is supplied and a
last attempt record exists (its thrown errors are discarded), the provider
is tried, and a successful try returns immediately with that provider's
name.  An exhausted chain yields the `All providers failed` result. -/
def chainLoop {μ : Type} (msg : μ) (primaryName : String)
    (onFailover : Option (FailoverEvent → Except String Unit))
    (getProvider : String → Except String (Transport μ)) (maxRetries : Int) :
    List String → OrchState → RunResult
  | [], st =>
    { result :=
        { success := false, error := some "All providers failed", messageId := none
          provider := primaryName, failoverUsed := true, failoverAttempts := st.attempts }
      resolved := st.resolved, events := st.events, sends := st.sends }
  | chainName :: rest, st =>
    if chainName = primaryName then
      chainLoop msg primaryName onFailover getProvider maxRetries rest st
    else
      match getProvider chainName with
      | Except.error _ =>
        chainLoop msg primaryName onFailover getProvider maxRetries rest
          { st with resolved := st.resolved ++ [(chainName, false)] }
      | Except.ok chainProvider =>
        let st1 : OrchState := { st with resolved := st.resolved ++ [(chainName, true)] }
        let st2 : OrchState :=
          match onFailover, st1.attempts.getLast? with
          | some cb, some lastFailed =>
            let ev : FailoverEvent :=
              { failedMailer := lastFailed.mailer
                error := lastFailed.error.getD "Unknown error"
                nextMailer := chainName
                attemptIndex := st1.attempts.length }
            let _ignored : Except String Unit := cb ev
            { st1 with events := st1.events ++ [ev] }
          | _, _ => st1
        let tried := tryProvider chainProvider msg chainName maxRetries st2
        if tried.1.success then
          { result :=
              { success := tried.1.success, error := tried.1.error
                messageId := tried.1.messageId, provider := chainName
                failoverUsed := true, failoverAttempts := tried.2.attempts }
            resolved := tried.2.resolved, events := tried.2.events, sends := tried.2.sends }
        else
          chainLoop msg primaryName onFailover getProvider maxRetries rest tried.2

/-- `FailoverManager.sendWithFailover`: try the primary provider with
retries; on success return with `failoverUsed = false`, otherwise walk the
chain. -/
def sendWithFailover {μ : Type} (msg : μ) (primaryName : String)
    (primaryProvider : Transport μ) (cfg : FailoverConfig)
    (getProvider : String → Except String (Transport μ)) : RunResult :=
  let maxRetries : Int := cfg.maxRetriesPerProvider.getD 1
  let primary := tryProvider primaryProvider msg primaryName maxRetries OrchState.empty
  if primary.1.success then
    { result :=
        { success := primary.1.success, error := primary.1.error
          messageId := primary.1.messageId, provider := primaryName
          failoverUsed := false, failoverAttempts := primary.2.attempts }
      resolved := primary.2.resolved, events := primary.2.events, sends := primary.2.sends }
  else
    chainLoop msg primaryName cfg.onFailover getProvider maxRetries cfg.chain primary.2

/-- A `send` invocation that did not succeed: a failed response or a throw. -/
def sendFailed (s : SendResult) : Prop := (retOf s).success = false

/-- A `send` invocation that resolved successfully. -/
def sendSucceeded (s : SendResult) : Prop := (retOf s).success = true

/-- Whether resolution succeeded. -/
def isOkB {μ : Type} : Except String (Transport μ) → Bool
  | Except.ok _ => true
  | Except.error _ => false

/-- A chain entry that can never produce a successful attempt on `msg`:
it names the primary, is unresolvable, or resolves to a transport every
invocation of which fails. -/
def deadEntry {μ : Type} (msg : μ) (primaryName : String)
    (getProvider : String → Except String (Transport μ)) (c : String) : Prop :=
  c = primaryName ∨
    match getProvider c with
    | Except.error _ => True
    | Except.ok t => ∀ i, sendFailed (t msg i)

/-- The number of chain entries that are resolvable and distinct from the
primary: exactly those entries that give rise to attempt records. -/
def countLive {μ : Type} (primaryName : String)
    (getProvider : String → Except String (Transport μ)) (chain : List String) : Nat :=
  (chain.filter (fun c => decide (c ≠ primaryName) && isOkB (getProvider c))).length

/-- The attempt record one `send` invocation pushes, whether it resolves or
throws. -/
def recordOf (name : String) : SendResult → FailoverDetail
  | SendResult.ret r => mkDetail name r
  | SendResult.exn m => ⟨name, false, some m⟩

/-- The events (none or one) fired when transitioning to a resolved chain
entry `c`: one event exactly when a callback is supplied and a last attempt
record exists. -/
def firedEvents (cb : Option (FailoverEvent → Except String Unit)) (c : String)
    (atts : List FailoverDetail) : List FailoverEvent :=
  match cb, atts.getLast? with
  | some _, some lf => [⟨lf.mailer, lf.error.getD "Unknown error", c, atts.length⟩]
  | _, _ => []

/-- The invariant C6 is about: one event per successful resolution, events
target the resolved entries in order, and each event indexes the attempt
list so that the record before it is the failure it reports and the record
at it starts the next provider's segment. -/
def eventInv (atts : List FailoverDetail) (rsv : List (String × Bool))
    (evs : List FailoverEvent) : Prop :=
  evs.length = (rsv.filter (fun q => q.2)).length ∧
  evs.map (fun e => e.nextMailer) = (rsv.filter (fun q => q.2)).map (fun q => q.1) ∧
  ∀ e ∈ evs, 1 ≤ e.attemptIndex ∧
    (∃ rec, atts[e.attemptIndex - 1]? = some rec ∧ rec.mailer = e.failedMailer ∧
      e.error = rec.error.getD "Unknown error") ∧
    (∃ rec2, atts[e.attemptIndex]? = some rec2 ∧ rec2.mailer = e.nextMailer)

/-- Convert a throw into the failed response the `catch` branch builds. -/
def exnToFail : SendResult → SendResult
  | SendResult.ret r => SendResult.ret r
  | SendResult.exn m => SendResult.ret { success := false, error := some m }

/-- A transport with every throw converted to a reported failure. -/
def tameT {μ : Type} (t : Transport μ) : Transport μ :=
  fun x i => exnToFail (t x i)

/-- A resolver with every resolved transport tamed. -/
def tameR {μ : Type} (gp : String → Except String (Transport μ)) :
    String → Except String (Transport μ) :=
  fun n => Except.map tameT (gp n)

/-- A transport whose exception messages are never the empty string. -/
def exnMsgsNonEmpty {μ : Type} (t : Transport μ) (msg : μ) : Prop :=
  ∀ i m, t msg i = SendResult.exn m → m ≠ ""

/-! ### Concrete instances used to witness the theorems -/

/-- A transport that always reports failure. -/
def wFailT : Transport Unit := fun _ _ => SendResult.ret { success := false, error := some "down" }

/-- A transport that always succeeds. -/
def wOkT : Transport Unit :=
  fun _ _ => SendResult.ret { success := true, messageId := some "mid-1" }

/-- A transport that always throws. -/
def wThrowT : Transport Unit := fun _ _ => SendResult.exn "boom"

/-- A transport that fails its first two invocations and succeeds on the
third. -/
def wRetryT : Transport Unit :=
  fun _ i =>
    if i < 2 then SendResult.ret { success := false, error := some "tmp" }
    else SendResult.ret { success := true, messageId := some "ok3" }

/-- A resolver: `ses` resolves to the succeeding transport, `smtp` to the
failing one, everything else throws. -/
def wResolver : String → Except String (Transport Unit) :=
  fun n =>
    if n = "ses" then Except.ok wOkT
    else if n = "smtp" then Except.ok wFailT
    else Except.error "not configured"

/-- A callback that always throws. -/
def wThrowCb : FailoverEvent → Except String Unit := fun _ => Except.error "cb"

/-- Config for the C5 witness: a chain, two retries, a throwing callback. -/
def wCfg5 : FailoverConfig :=
  { chain := ["ses"], maxRetriesPerProvider := some 2, onFailover := some wThrowCb }

/-- Config for the C1 witness. -/
def wCfg1 : FailoverConfig := { chain := ["smtp", "ses"], maxRetriesPerProvider := some 1 }

/-- Config for the C2 witness: an unresolvable entry, the primary's own
name, and an always-failing entry. -/
def wCfg2 : FailoverConfig := { chain := ["x", "p", "smtp"], maxRetriesPerProvider := some 1 }

/-- Config for the C3 witness. -/
def wCfg3 : FailoverConfig := { chain := ["ses", "smtp"], maxRetriesPerProvider := some 1 }

/-- Config for the C4 witness: three retries allowed. -/
def wCfg4 : FailoverConfig := { chain := ["ses"], maxRetriesPerProvider := some 3 }

/-- Config for the C6 witness: a throwing callback and a mixed chain. -/
def wCfg6 : FailoverConfig :=
  { chain := ["x", "smtp", "p", "ses"], maxRetriesPerProvider := some 1
    onFailover := some wThrowCb }

/-- Config for the C7 witness. -/
def wCfg7 : FailoverConfig := { chain := ["smtp", "ses"], maxRetriesPerProvider := some 1 }

/-- Config for the C8 witness: a dead entry, an unresolvable entry, a
succeeding entry and an unreached tail. -/
def wCfg8 : FailoverConfig :=
  { chain := ["smtp", "x", "ses", "zzz"], maxRetriesPerProvider := some 1 }

/-- Config for the C9 witness: the chain names the primary. -/
def wCfg9 : FailoverConfig := { chain := ["p", "ses"], maxRetriesPerProvider := some 1 }

/-- Config for the C10 witness: zero retries. -/
def wCfg10 : FailoverConfig := { chain := ["ses"], maxRetriesPerProvider := some 0 }

/-! ### Lemmas about the retry loop

`tryRun` recomputes the retry loop as a pure function returning the final
response together with the attempt records and send invocations of this
`tryProvider` call, in chronological order; `tryProviderLoop_eq_tryRun`
shows the stateful loop is exactly "append that delta to the shared log".
All further reasoning about retries goes through `tryRun`. -/

/-- Pure recomputation of the retry loop: final response, attempt records
pushed, and send invocations made, in order. -/
def tryRun {μ : Type} (p : Transport μ) (msg : μ) (name : String) :
    Nat → Nat → MailResponse →
      MailResponse × List FailoverDetail × List (String × Nat)
  | 0, _, last => (last, [], [])
  | Nat.succ fuel, attempt, _ =>
    match p msg attempt with
    | SendResult.ret resp =>
      if resp.success then (resp, [mkDetail name resp], [(name, attempt)])
      else
        let rest := tryRun p msg name fuel (attempt + 1) resp
        (rest.1, mkDetail name resp :: rest.2.1, (name, attempt) :: rest.2.2)
    | SendResult.exn m =>
      let rest := tryRun p msg name fuel (attempt + 1) ⟨false, some m, none⟩
      (rest.1, (⟨name, false, some m⟩ : FailoverDetail) :: rest.2.1,
        (name, attempt) :: rest.2.2)

/-- The stateful retry loop is the pure run with its deltas appended to the
incoming log; the resolver and event logs are untouched. -/
theorem tryProviderLoop_eq_tryRun {μ : Type} (p : Transport μ) (msg : μ) (name : String)
    (fuel : Nat) :
    ∀ (attempt : Nat) (last : MailResponse) (st : OrchState),
      tryProviderLoop p msg name fuel attempt last st =
        ((tryRun p msg name fuel attempt last).1,
          { st with
              attempts := st.attempts ++ (tryRun p msg name fuel attempt last).2.1,
              sends := st.sends ++ (tryRun p msg name fuel attempt last).2.2 }) := by
  induction fuel with
  | zero => intro att last st; simp [tryProviderLoop, tryRun]
  | succ f ih =>
    intro att last st
    simp only [tryProviderLoop, tryRun]
    cases h : p msg att with
    | ret resp =>
      by_cases hs : resp.success = true
      · simp [hs]
      · simp [hs, ih]
    | exn m => simp [ih]

/-- `tryProvider` in terms of the pure run. -/
theorem tryProvider_eq_tryRun {μ : Type} (p : Transport μ) (msg : μ) (name : String)
    (maxRetries : Int) (st : OrchState) :
    tryProvider p msg name maxRetries st =
      ((tryRun p msg name maxRetries.toNat 0
          { success := false, error := some "No attempts made" }).1,
        { st with
            attempts := st.attempts ++ (tryRun p msg name maxRetries.toNat 0
              { success := false, error := some "No attempts made" }).2.1,
            sends := st.sends ++ (tryRun p msg name maxRetries.toNat 0
              { success := false, error := some "No attempts made" }).2.2 }) :=
  tryProviderLoop_eq_tryRun p msg name maxRetries.toNat 0 _ st

/-- A single-iteration retry loop performs exactly one `send`: it returns
that invocation's (possibly exception-substituted) response and pushes its
record. -/
theorem tryRun_one {μ : Type} (p : Transport μ) (msg : μ) (name : String)
    (attempt : Nat) (last : MailResponse) :
    tryRun p msg name 1 attempt last =
      (retOf (p msg attempt), [recordOf name (p msg attempt)], [(name, attempt)]) := by
  simp only [tryRun]
  cases h : p msg attempt with
  | ret resp =>
    by_cases hs : resp.success = true
    · simp [hs, retOf, recordOf]
    · simp [hs, retOf, recordOf, tryRun]
  | exn m => simp [retOf, recordOf, tryRun]

/-- Every record pushed by the retry loop names the tried provider, and so
does every send invocation. -/
theorem tryRun_mailers {μ : Type} (p : Transport μ) (msg : μ) (name : String)
    (fuel : Nat) :
    ∀ (attempt : Nat) (last : MailResponse),
      (∀ r ∈ (tryRun p msg name fuel attempt last).2.1, r.mailer = name) ∧
        (∀ q ∈ (tryRun p msg name fuel attempt last).2.2, q.1 = name) := by
  induction fuel with
  | zero => intro att last; simp [tryRun]
  | succ f ih =>
    intro att last
    simp only [tryRun]
    cases h : p msg att with
    | ret resp =>
      by_cases hs : resp.success = true
      · simp [hs, mkDetail]
      · obtain ⟨ih1, ih2⟩ := ih (att + 1) resp
        constructor
        · intro r hr
          simp only [hs, if_false, Bool.false_eq_true, List.mem_cons] at hr
          rcases hr with hr | hr
          · rw [hr]; rfl
          · exact ih1 r hr
        · intro q hq
          simp only [hs, if_false, Bool.false_eq_true, List.mem_cons] at hq
          rcases hq with hq | hq
          · rw [hq]
          · exact ih2 q hq
    | exn m =>
      obtain ⟨ih1, ih2⟩ := ih (att + 1) ⟨false, some m, none⟩
      constructor
      · intro r hr
        simp only [List.mem_cons] at hr
        rcases hr with hr | hr
        · rw [hr]
        · exact ih1 r hr
      · intro q hq
        simp only [List.mem_cons] at hq
        rcases hq with hq | hq
        · rw [hq]
        · exact ih2 q hq

/-- With at least one iteration, the first record pushed is the record of
the first `send` invocation. -/
theorem tryRun_head {μ : Type} (p : Transport μ) (msg : μ) (name : String)
    (fuel attempt : Nat) (last : MailResponse) :
    (tryRun p msg name (fuel + 1) attempt last).2.1.head? =
      some (recordOf name (p msg attempt)) := by
  simp only [tryRun]
  cases h : p msg attempt with
  | ret resp =>
    by_cases hs : resp.success = true
    · simp [hs, recordOf]
    · simp [hs, recordOf]
  | exn m => simp [recordOf]

/-- If every invocation of the provider fails and the seed response is a
failure, the retry loop returns a failed response and pushes exactly one
record and one send per iteration. -/
theorem tryRun_fail {μ : Type} (p : Transport μ) (msg : μ) (name : String)
    (hfail : ∀ i, sendFailed (p msg i)) (fuel : Nat) :
    ∀ (attempt : Nat) (last : MailResponse), last.success = false →
      (tryRun p msg name fuel attempt last).1.success = false ∧
        (tryRun p msg name fuel attempt last).2.1.length = fuel ∧
        (tryRun p msg name fuel attempt last).2.2.length = fuel := by
  induction fuel with
  | zero => intro att last hl; simp [tryRun, hl]
  | succ f ih =>
    intro att last hl
    simp only [tryRun]
    cases h : p msg att with
    | ret resp =>
      have hrf : resp.success = false := by
        have := hfail att
        rw [sendFailed, h] at this
        exact this
      obtain ⟨g1, g2, g3⟩ := ih (att + 1) resp hrf
      simp [hrf, g1, g2, g3]
    | exn m =>
      obtain ⟨g1, g2, g3⟩ := ih (att + 1) ⟨false, some m, none⟩ rfl
      simp [g1, g2, g3]

/-- If the provider fails on the first `j` invocations tried and succeeds
on the next one, and at least `j + 1` iterations remain, the retry loop
stops at that first success: it returns that invocation's response and
pushes exactly `j + 1` records and sends. -/
theorem tryRun_succ {μ : Type} (p : Transport μ) (msg : μ) (name : String) :
    ∀ (j fuel attempt : Nat) (last : MailResponse),
      (∀ i, i < j → sendFailed (p msg (attempt + i))) →
      sendSucceeded (p msg (attempt + j)) → j < fuel →
      (tryRun p msg name fuel attempt last).1 = retOf (p msg (attempt + j)) ∧
        (tryRun p msg name fuel attempt last).2.1.length = j + 1 ∧
        (tryRun p msg name fuel attempt last).2.2.length = j + 1 := by
  intro j
  induction j with
  | zero =>
    intro fuel att last _ hsucc hlt
    cases fuel with
    | zero => omega
    | succ f =>
      simp only [tryRun]
      cases h : p msg att with
      | ret resp =>
        have hrs : resp.success = true := by
          have := hsucc
          rw [sendSucceeded, Nat.add_zero, h] at this
          exact this
        simp [hrs, Nat.add_zero, h, retOf]
      | exn m =>
        exfalso
        have := hsucc
        rw [sendSucceeded, Nat.add_zero, h] at this
        simp [retOf] at this
  | succ j ih =>
    intro fuel att last hfail hsucc hlt
    cases fuel with
    | zero => omega
    | succ f =>
      simp only [tryRun]
      have hf0 : sendFailed (p msg att) := by
        have := hfail 0 (Nat.succ_pos j)
        rwa [Nat.add_zero] at this
      have hfail2 : ∀ i, i < j → sendFailed (p msg (att + 1 + i)) := by
        intro i hi
        have := hfail (i + 1) (by omega)
        rwa [show att + (i + 1) = att + 1 + i by omega] at this
      have hsucc2 : sendSucceeded (p msg (att + 1 + j)) := by
        rwa [show att + 1 + j = att + (j + 1) by omega]
      have hlt2 : j < f := by omega
      cases h : p msg att with
      | ret resp =>
        have hrf : resp.success = false := by
          rw [sendFailed, h] at hf0
          exact hf0
        obtain ⟨g1, g2, g3⟩ := ih f (att + 1) resp hfail2 hsucc2 hlt2
        constructor
        · simpa [hrf, show att + 1 + j = att + (j + 1) by omega] using g1
        · constructor
          · simpa [hrf] using g2
          · simpa [hrf] using g3
      | exn m =>
        obtain ⟨g1, g2, g3⟩ := ih f (att + 1) ⟨false, some m, none⟩ hfail2 hsucc2 hlt2
        constructor
        · simpa [show att + 1 + j = att + (j + 1) by omega] using g1
        · constructor
          · simpa using g2
          · simpa using g3

/-! ### Lemmas about the chain walk -/

/-- A chain entry equal to the primary is skipped outright. -/
theorem chainLoop_cons_skip {μ : Type} (msg : μ) (pn : String)
    (cb : Option (FailoverEvent → Except String Unit))
    (gp : String → Except String (Transport μ)) (mr : Int)
    (rest : List String) (st : OrchState) :
    chainLoop msg pn cb gp mr (pn :: rest) st = chainLoop msg pn cb gp mr rest st := by
  simp [chainLoop]

/-- An unresolvable chain entry is skipped; only the resolution attempt is
logged. -/
theorem chainLoop_cons_err {μ : Type} (msg : μ) (pn : String)
    (cb : Option (FailoverEvent → Except String Unit))
    (gp : String → Except String (Transport μ)) (mr : Int)
    (c : String) (rest : List String) (st : OrchState)
    (hc : ¬(c = pn)) (e : String) (hg : gp c = Except.error e) :
    chainLoop msg pn cb gp mr (c :: rest) st =
      chainLoop msg pn cb gp mr rest
        { st with resolved := st.resolved ++ [(c, false)] } := by
  simp [chainLoop, hc, hg]

/-- One step of the chain walk at a resolvable non-primary entry: the
resolution is logged, the transition events fire, the provider is tried,
and the walk either returns that provider's successful response or
continues with the extended log. -/
theorem chainLoop_cons_ok {μ : Type} (msg : μ) (pn : String)
    (cb : Option (FailoverEvent → Except String Unit))
    (gp : String → Except String (Transport μ)) (mr : Int)
    (c : String) (rest : List String) (st : OrchState)
    (hc : ¬(c = pn)) (t : Transport μ) (hg : gp c = Except.ok t) :
    chainLoop msg pn cb gp mr (c :: rest) st =
      (if (tryRun t msg c mr.toNat 0
            { success := false, error := some "No attempts made" }).1.success = true then
        { result :=
            { success := (tryRun t msg c mr.toNat 0
                { success := false, error := some "No attempts made" }).1.success
              error := (tryRun t msg c mr.toNat 0
                { success := false, error := some "No attempts made" }).1.error
              messageId := (tryRun t msg c mr.toNat 0
                { success := false, error := some "No attempts made" }).1.messageId
              provider := c, failoverUsed := true
              failoverAttempts := st.attempts ++ (tryRun t msg c mr.toNat 0
                { success := false, error := some "No attempts made" }).2.1 }
          resolved := st.resolved ++ [(c, true)]
          events := st.events ++ firedEvents cb c st.attempts
          sends := st.sends ++ (tryRun t msg c mr.toNat 0
            { success := false, error := some "No attempts made" }).2.2 }
      else
        chainLoop msg pn cb gp mr rest
          { attempts := st.attempts ++ (tryRun t msg c mr.toNat 0
              { success := false, error := some "No attempts made" }).2.1
            resolved := st.resolved ++ [(c, true)]
            events := st.events ++ firedEvents cb c st.attempts
            sends := st.sends ++ (tryRun t msg c mr.toNat 0
              { success := false, error := some "No attempts made" }).2.2 }) := by
  simp only [chainLoop, if_neg hc, hg]
  cases hcb : cb with
  | none =>
    simp only [firedEvents]
    rw [tryProvider_eq_tryRun]
    simp
  | some cbf =>
    cases hlast : st.attempts.getLast? with
    | none =>
      simp only [firedEvents, hlast]
      rw [tryProvider_eq_tryRun]
      simp
    | some lf =>
      simp only [firedEvents, hlast]
      rw [tryProvider_eq_tryRun]

/-- Every event fired on transitioning to entry `c` targets `c`, carries
the last attempt record's mailer and error (defaulted), and indexes the
current length of the attempt list. -/
theorem firedEvents_mem (cb : Option (FailoverEvent → Except String Unit)) (c : String)
    (atts : List FailoverDetail) :
    ∀ e ∈ firedEvents cb c atts,
      e.nextMailer = c ∧ e.attemptIndex = atts.length ∧
        ∃ lf, atts.getLast? = some lf ∧ e.failedMailer = lf.mailer ∧
          e.error = lf.error.getD "Unknown error" := by
  intro e he
  cases hcb : cb with
  | none => simp [firedEvents, hcb] at he
  | some cbf =>
    cases hlast : atts.getLast? with
    | none => simp [firedEvents, hcb, hlast] at he
    | some lf =>
      simp only [firedEvents, hcb, hlast, List.mem_singleton] at he
      subst he
      exact ⟨rfl, rfl, lf, rfl, rfl, rfl⟩

/-- Monotonicity and provenance of the chain walk: it only appends to each
log, every attempt record and send it adds names a resolvable non-primary
chain entry, every resolver call it makes is for a non-primary name, and
every event it fires targets a resolvable non-primary entry. -/
theorem chainLoop_mono {μ : Type} (msg : μ) (pn : String)
    (cb : Option (FailoverEvent → Except String Unit))
    (gp : String → Except String (Transport μ)) (mr : Int) :
    ∀ (chain : List String) (st : OrchState),
      ∃ d rd ed sd,
        (chainLoop msg pn cb gp mr chain st).result.failoverAttempts = st.attempts ++ d ∧
        (chainLoop msg pn cb gp mr chain st).resolved = st.resolved ++ rd ∧
        (chainLoop msg pn cb gp mr chain st).events = st.events ++ ed ∧
        (chainLoop msg pn cb gp mr chain st).sends = st.sends ++ sd ∧
        (∀ r ∈ d, r.mailer ≠ pn ∧ isOkB (gp r.mailer) = true) ∧
        (∀ q ∈ rd, q.1 ≠ pn) ∧
        (∀ e ∈ ed, e.nextMailer ≠ pn ∧ isOkB (gp e.nextMailer) = true) ∧
        (∀ q ∈ sd, q.1 ≠ pn ∧ isOkB (gp q.1) = true) := by
  intro chain
  induction chain with
  | nil =>
    intro st
    exact ⟨[], [], [], [], by simp [chainLoop], by simp [chainLoop],
      by simp [chainLoop], by simp [chainLoop],
      by simp, by simp, by simp, by simp⟩
  | cons c rest ih =>
    intro st
    by_cases hc : c = pn
    · subst hc
      obtain ⟨d, rd, ed, sd, h1, h2, h3, h4, h5, h6, h7, h8⟩ := ih st
      rw [chainLoop_cons_skip]
      exact ⟨d, rd, ed, sd, h1, h2, h3, h4, h5, h6, h7, h8⟩
    · cases hg : gp c with
      | error e =>
        rw [chainLoop_cons_err msg pn cb gp mr c rest st hc e hg]
        obtain ⟨d, rd, ed, sd, h1, h2, h3, h4, h5, h6, h7, h8⟩ :=
          ih { st with resolved := st.resolved ++ [(c, false)] }
        refine ⟨d, (c, false) :: rd, ed, sd, h1, ?_, h3, h4, h5, ?_, h7, h8⟩
        · rw [h2]; simp
        · intro q hq
          rcases List.mem_cons.mp hq with hq | hq
          · rw [hq]; exact hc
          · exact h6 q hq
      | ok t =>
        have hokb : isOkB (gp c) = true := by rw [hg]; rfl
        rw [chainLoop_cons_ok msg pn cb gp mr c rest st hc t hg]
        have hmail := tryRun_mailers t msg c mr.toNat 0
          { success := false, error := some "No attempts made" }
        have hed0 := firedEvents_mem cb c st.attempts
        by_cases hs : (tryRun t msg c mr.toNat 0
            { success := false, error := some "No attempts made" }).1.success = true
        · rw [if_pos hs]
          refine ⟨(tryRun t msg c mr.toNat 0
              { success := false, error := some "No attempts made" }).2.1,
            [(c, true)], firedEvents cb c st.attempts,
            (tryRun t msg c mr.toNat 0
              { success := false, error := some "No attempts made" }).2.2,
            rfl, rfl, rfl, rfl, ?_, ?_, ?_, ?_⟩
          · intro r hr
            rw [hmail.1 r hr]
            exact ⟨hc, hokb⟩
          · intro q hq
            rw [List.mem_singleton.mp hq]
            exact hc
          · intro ev hev
            rw [(hed0 ev hev).1]
            exact ⟨hc, hokb⟩
          · intro q hq
            rw [hmail.2 q hq]
            exact ⟨hc, hokb⟩
        · rw [if_neg hs]
          obtain ⟨d, rd, ed, sd, h1, h2, h3, h4, h5, h6, h7, h8⟩ :=
            ih { attempts := st.attempts ++ (tryRun t msg c mr.toNat 0
                  { success := false, error := some "No attempts made" }).2.1
                 resolved := st.resolved ++ [(c, true)]
                 events := st.events ++ firedEvents cb c st.attempts
                 sends := st.sends ++ (tryRun t msg c mr.toNat 0
                  { success := false, error := some "No attempts made" }).2.2 }

          refine ⟨(tryRun t msg c mr.toNat 0
              { success := false, error := some "No attempts made" }).2.1 ++ d,
            (c, true) :: rd, firedEvents cb c st.attempts ++ ed,
            (tryRun t msg c mr.toNat 0
              { success := false, error := some "No attempts made" }).2.2 ++ sd,
            ?_, ?_, ?_, ?_, ?_, ?_, ?_, ?_⟩
          · rw [h1]; simp
          · rw [h2]; simp
          · rw [h3]; simp
          · rw [h4]; simp
          · intro r hr
            rcases List.mem_append.mp hr with hr | hr
            · rw [hmail.1 r hr]; exact ⟨hc, hokb⟩
            · exact h5 r hr
          · intro q hq
            rcases List.mem_cons.mp hq with hq | hq
            · rw [hq]; exact hc
            · exact h6 q hq
          · intro ev hev
            rcases List.mem_append.mp hev with hev | hev
            · rw [(hed0 ev hev).1]; exact ⟨hc, hokb⟩
            · exact h7 ev hev
          · intro q hq
            rcases List.mem_append.mp hq with hq | hq
            · rw [hmail.2 q hq]; exact ⟨hc, hokb⟩
            · exact h8 q hq

/-- Walking a prefix of dead entries (primary-named, unresolvable, or
resolving to an always-failing transport) never succeeds: the walk reaches
the remainder of the chain having added exactly `maxRetries` attempt
records per resolvable non-primary dead entry. -/
theorem chainLoop_dead {μ : Type} (msg : μ) (pn : String)
    (cb : Option (FailoverEvent → Except String Unit))
    (gp : String → Except String (Transport μ)) (mr : Int) :
    ∀ (pre : List String) (rest : List String) (st : OrchState),
      (∀ c ∈ pre, deadEntry msg pn gp c) →
      ∃ st2 : OrchState,
        chainLoop msg pn cb gp mr (pre ++ rest) st =
          chainLoop msg pn cb gp mr rest st2 ∧
        st2.attempts.length = st.attempts.length + mr.toNat * countLive pn gp pre ∧
        (∃ d, st2.attempts = st.attempts ++ d) := by
  intro pre
  induction pre with
  | nil =>
    intro rest st _
    exact ⟨st, by simp, by simp [countLive], ⟨[], by simp⟩⟩
  | cons c pre ih =>
    intro rest st hdead
    have hdc := hdead c (List.mem_cons_self c pre)
    have hdead2 : ∀ x ∈ pre, deadEntry msg pn gp x :=
      fun x hx => hdead x (List.mem_cons_of_mem c hx)
    by_cases hc : c = pn
    · subst hc
      obtain ⟨st2, g1, g2, g3⟩ := ih rest st hdead2
      refine ⟨st2, ?_, ?_, g3⟩
      · rw [List.cons_append, chainLoop_cons_skip]; exact g1
      · rw [g2]; simp [countLive]
    · cases hg : gp c with
      | error e =>
        obtain ⟨st2, g1, g2, g3⟩ :=
          ih rest { st with resolved := st.resolved ++ [(c, false)] } hdead2
        refine ⟨st2, ?_, ?_, g3⟩
        · rw [List.cons_append, chainLoop_cons_err msg pn cb gp mr c _ st hc e hg]
          exact g1
        · rw [g2]; simp [countLive, hc, hg, isOkB]
      | ok t =>
        have hfail : ∀ i, sendFailed (t msg i) := by
          simp only [deadEntry, hg] at hdc
          rcases hdc with hdc | hdc
          · exact absurd hdc hc
          · exact hdc
        have hrun := tryRun_fail t msg c hfail mr.toNat 0
          { success := false, error := some "No attempts made" } rfl
        obtain ⟨st2, g1, g2, g3⟩ := ih rest
          { attempts := st.attempts ++ (tryRun t msg c mr.toNat 0
              { success := false, error := some "No attempts made" }).2.1
            resolved := st.resolved ++ [(c, true)]
            events := st.events ++ firedEvents cb c st.attempts
            sends := st.sends ++ (tryRun t msg c mr.toNat 0
              { success := false, error := some "No attempts made" }).2.2 } hdead2
        refine ⟨st2, ?_, ?_, ?_⟩
        · rw [List.cons_append, chainLoop_cons_ok msg pn cb gp mr c _ st hc t hg,
            if_neg (by rw [hrun.1]; simp)]
          exact g1
        · rw [g2]
          simp only [List.length_append, hrun.2.1]
          have hcl : countLive pn gp (c :: pre) = countLive pn gp pre + 1 := by
            simp [countLive, hc, hg, isOkB]
          rw [hcl, Nat.mul_add, Nat.mul_one]
          omega
        · obtain ⟨d, hd⟩ := g3
          exact ⟨(tryRun t msg c mr.toNat 0
              { success := false, error := some "No attempts made" }).2.1 ++ d,
            by rw [hd]; simp⟩

/-- The chain walk never reads the resolver log: runs from states agreeing
on everything but `resolved` agree on the result, events and sends. -/
theorem chainLoop_resolved_irrel {μ : Type} (msg : μ) (pn : String)
    (cb : Option (FailoverEvent → Except String Unit))
    (gp : String → Except String (Transport μ)) (mr : Int) :
    ∀ (chain : List String) (a b : OrchState),
      a.attempts = b.attempts → a.events = b.events → a.sends = b.sends →
      (chainLoop msg pn cb gp mr chain a).result =
        (chainLoop msg pn cb gp mr chain b).result ∧
      (chainLoop msg pn cb gp mr chain a).events =
        (chainLoop msg pn cb gp mr chain b).events ∧
      (chainLoop msg pn cb gp mr chain a).sends =
        (chainLoop msg pn cb gp mr chain b).sends := by
  intro chain
  induction chain with
  | nil =>
    intro a b h1 h2 h3
    refine ⟨?_, by simpa [chainLoop] using h2, by simpa [chainLoop] using h3⟩
    simp only [chainLoop]
    rw [h1]
  | cons c rest ih =>
    intro a b h1 h2 h3
    by_cases hc : c = pn
    · subst hc
      rw [chainLoop_cons_skip, chainLoop_cons_skip]
      exact ih a b h1 h2 h3
    · cases hg : gp c with
      | error e =>
        rw [chainLoop_cons_err msg pn cb gp mr c rest a hc e hg,
          chainLoop_cons_err msg pn cb gp mr c rest b hc e hg]
        exact ih _ _ h1 h2 h3
      | ok t =>
        rw [chainLoop_cons_ok msg pn cb gp mr c rest a hc t hg,
          chainLoop_cons_ok msg pn cb gp mr c rest b hc t hg]
        by_cases hs : (tryRun t msg c mr.toNat 0
            { success := false, error := some "No attempts made" }).1.success = true
        · rw [if_pos hs, if_pos hs]
          refine ⟨?_, ?_, ?_⟩
          · simp only []
            rw [h1]
          · simp only []
            rw [h2, h1]
          · simp only []
            rw [h3]
        · rw [if_neg hs, if_neg hs]
          exact ih _ _ (by simp only []; rw [h1]) (by simp only []; rw [h1, h2])
            (by simp only []; rw [h3])

/-- Erasing the callback changes nothing observable except the event log:
the run with a callback and the run without one agree on the result, the
resolver log and the send log. -/
theorem chainLoop_callback_irrel {μ : Type} (msg : μ) (pn : String)
    (gp : String → Except String (Transport μ)) (mr : Int)
    (cb : FailoverEvent → Except String Unit) :
    ∀ (chain : List String) (a b : OrchState),
      a.attempts = b.attempts → a.resolved = b.resolved → a.sends = b.sends →
      (chainLoop msg pn (some cb) gp mr chain a).result =
        (chainLoop msg pn none gp mr chain b).result ∧
      (chainLoop msg pn (some cb) gp mr chain a).resolved =
        (chainLoop msg pn none gp mr chain b).resolved ∧
      (chainLoop msg pn (some cb) gp mr chain a).sends =
        (chainLoop msg pn none gp mr chain b).sends := by
  intro chain
  induction chain with
  | nil =>
    intro a b h1 h2 h3
    refine ⟨?_, by simpa [chainLoop] using h2, by simpa [chainLoop] using h3⟩
    simp only [chainLoop]
    rw [h1]
  | cons c rest ih =>
    intro a b h1 h2 h3
    by_cases hc : c = pn
    · subst hc
      rw [chainLoop_cons_skip, chainLoop_cons_skip]
      exact ih a b h1 h2 h3
    · cases hg : gp c with
      | error e =>
        rw [chainLoop_cons_err msg pn (some cb) gp mr c rest a hc e hg,
          chainLoop_cons_err msg pn none gp mr c rest b hc e hg]
        exact ih _ _ h1 (by simp only []; rw [h2]) h3
      | ok t =>
        rw [chainLoop_cons_ok msg pn (some cb) gp mr c rest a hc t hg,
          chainLoop_cons_ok msg pn none gp mr c rest b hc t hg]
        by_cases hs : (tryRun t msg c mr.toNat 0
            { success := false, error := some "No attempts made" }).1.success = true
        · rw [if_pos hs, if_pos hs]
          refine ⟨?_, ?_, ?_⟩
          · simp only []
            rw [h1]
          · simp only []
            rw [h2]
          · simp only []
            rw [h3]
        · rw [if_neg hs, if_neg hs]
          exact ih _ _ (by simp only []; rw [h1]) (by simp only []; rw [h2])
            (by simp only []; rw [h3])

/-- Removing an unresolvable non-primary entry from anywhere in the chain
leaves the result, the event log and the send log unchanged: the walk
proceeds past it as if it were absent. -/
theorem chainLoop_skip_err {μ : Type} (msg : μ) (pn : String)
    (cb : Option (FailoverEvent → Except String Unit))
    (gp : String → Except String (Transport μ)) (mr : Int)
    (x : String) (hx : ¬(x = pn)) (e : String) (hgx : gp x = Except.error e) :
    ∀ (pre rest : List String) (st : OrchState),
      (chainLoop msg pn cb gp mr (pre ++ x :: rest) st).result =
        (chainLoop msg pn cb gp mr (pre ++ rest) st).result ∧
      (chainLoop msg pn cb gp mr (pre ++ x :: rest) st).events =
        (chainLoop msg pn cb gp mr (pre ++ rest) st).events ∧
      (chainLoop msg pn cb gp mr (pre ++ x :: rest) st).sends =
        (chainLoop msg pn cb gp mr (pre ++ rest) st).sends := by
  intro pre
  induction pre with
  | nil =>
    intro rest st
    rw [List.nil_append, List.nil_append,
      chainLoop_cons_err msg pn cb gp mr x rest st hx e hgx]
    exact chainLoop_resolved_irrel msg pn cb gp mr rest _ st rfl rfl rfl
  | cons c pre ih =>
    intro rest st
    by_cases hc : c = pn
    · subst hc
      rw [List.cons_append, List.cons_append, chainLoop_cons_skip, chainLoop_cons_skip]
      exact ih rest st
    · cases hg : gp c with
      | error e2 =>
        rw [List.cons_append, List.cons_append,
          chainLoop_cons_err msg pn cb gp mr c _ st hc e2 hg,
          chainLoop_cons_err msg pn cb gp mr c _ st hc e2 hg]
        exact ih rest _
      | ok t =>
        rw [List.cons_append, List.cons_append,
          chainLoop_cons_ok msg pn cb gp mr c _ st hc t hg,
          chainLoop_cons_ok msg pn cb gp mr c _ st hc t hg]
        by_cases hs : (tryRun t msg c mr.toNat 0
            { success := false, error := some "No attempts made" }).1.success = true
        · rw [if_pos hs, if_pos hs]
          exact ⟨rfl, rfl, rfl⟩
        · rw [if_neg hs, if_neg hs]
          exact ih rest _

/-- The mailer named by the record of one `send` invocation. -/
theorem recordOf_mailer (name : String) (s : SendResult) :
    (recordOf name s).mailer = name := by
  cases s with
  | ret r => rfl
  | exn m => rfl

/-- With at least one iteration, the retry loop pushes at least one
record. -/
theorem tryRun_ne {μ : Type} (p : Transport μ) (msg : μ) (name : String)
    (fuel attempt : Nat) (last : MailResponse) (hf : 1 ≤ fuel) :
    (tryRun p msg name fuel attempt last).2.1 ≠ [] := by
  cases fuel with
  | zero => omega
  | succ f =>
    intro hnil
    have := tryRun_head p msg name f attempt last
    rw [hnil] at this
    simp at this

/-- Appending records to the attempt list preserves the per-event indexing
facts of `eventInv`. -/
theorem eventInv_append (atts : List FailoverDetail) (rsv : List (String × Bool))
    (evs : List FailoverEvent) (d : List FailoverDetail)
    (h : eventInv atts rsv evs) : eventInv (atts ++ d) rsv evs := by
  obtain ⟨h1, h2, h3⟩ := h
  refine ⟨h1, h2, ?_⟩
  intro e he
  obtain ⟨g1, ⟨rec, hrec, hrm, hre⟩, ⟨rec2, hrec2, hrm2⟩⟩ := h3 e he
  have hb2 : e.attemptIndex < atts.length := by
    rcases List.getElem?_eq_some.mp hrec2 with ⟨hlt, _⟩
    exact hlt
  have hb1 : e.attemptIndex - 1 < atts.length := by omega
  refine ⟨g1, ⟨rec, ?_, hrm, hre⟩, ⟨rec2, ?_, hrm2⟩⟩
  · rw [List.getElem?_append_left hb1]; exact hrec
  · rw [List.getElem?_append_left hb2]; exact hrec2

/-- Chain walk preserves `eventInv` when a callback is supplied, the
attempt list is already non-empty, and at least one retry is allowed. -/
theorem chainLoop_eventInv {μ : Type} (msg : μ) (pn : String)
    (gp : String → Except String (Transport μ)) (mr : Int)
    (cb : FailoverEvent → Except String Unit) (hmr : 1 ≤ mr.toNat) :
    ∀ (chain : List String) (st : OrchState), st.attempts ≠ [] →
      eventInv st.attempts st.resolved st.events →
      eventInv (chainLoop msg pn (some cb) gp mr chain st).result.failoverAttempts
        (chainLoop msg pn (some cb) gp mr chain st).resolved
        (chainLoop msg pn (some cb) gp mr chain st).events := by
  intro chain
  induction chain with
  | nil =>
    intro st hne hinv
    simpa [chainLoop] using hinv
  | cons c rest ih =>
    intro st hne hinv
    by_cases hc : c = pn
    · subst hc
      rw [chainLoop_cons_skip]
      exact ih st hne hinv
    · cases hg : gp c with
      | error e =>
        rw [chainLoop_cons_err msg pn (some cb) gp mr c rest st hc e hg]
        refine ih _ hne ?_
        obtain ⟨h1, h2, h3⟩ := hinv
        refine ⟨?_, ?_, h3⟩
        · simpa [List.filter_append] using h1
        · simpa [List.filter_append] using h2
      | ok t =>
        rw [chainLoop_cons_ok msg pn (some cb) gp mr c rest st hc t hg]
        obtain ⟨lf, hlf⟩ :=
          Option.isSome_iff_exists.mp (List.getLast?_isSome.mpr hne)
        have hfe : firedEvents (some cb) c st.attempts =
            [⟨lf.mailer, lf.error.getD "Unknown error", c, st.attempts.length⟩] := by
          simp [firedEvents, hlf]
        have hlen1 : 1 ≤ st.attempts.length := List.length_pos.mpr hne
        obtain ⟨f, hf⟩ : ∃ f, mr.toNat = f + 1 := ⟨mr.toNat - 1, by omega⟩
        have hinv2 : eventInv
            (st.attempts ++ (tryRun t msg c mr.toNat 0
              { success := false, error := some "No attempts made" }).2.1)
            (st.resolved ++ [(c, true)])
            (st.events ++ firedEvents (some cb) c st.attempts) := by
          rw [hfe]
          obtain ⟨h1, h2, h3⟩ := eventInv_append st.attempts st.resolved st.events
            (tryRun t msg c mr.toNat 0
              { success := false, error := some "No attempts made" }).2.1 hinv
          refine ⟨?_, ?_, ?_⟩
          · simpa [List.filter_append] using h1
          · simpa [List.filter_append] using h2
          · intro e he
            rcases List.mem_append.mp he with he | he
            · exact h3 e he
            · rw [List.mem_singleton.mp he]
              refine ⟨hlen1, ⟨lf, ?_, rfl, rfl⟩, ?_⟩
              · show (st.attempts ++ (tryRun t msg c mr.toNat 0
                  { success := false, error := some "No attempts made" }).2.1)[
                    st.attempts.length - 1]? = some lf
                rw [List.getElem?_append_left (by omega), ← List.getLast?_eq_getElem?]
                exact hlf
              · refine ⟨recordOf c (t msg 0), ?_, recordOf_mailer c (t msg 0)⟩
                show (st.attempts ++ (tryRun t msg c mr.toNat 0
                  { success := false, error := some "No attempts made" }).2.1)[
                    st.attempts.length]? = some (recordOf c (t msg 0))
                rw [List.getElem?_append_right (Nat.le_refl _), Nat.sub_self,
                  ← List.head?_eq_getElem?, hf, tryRun_head]
        by_cases hs : (tryRun t msg c mr.toNat 0
            { success := false, error := some "No attempts made" }).1.success = true
        · rw [if_pos hs]
          exact hinv2
        · rw [if_neg hs]
          refine ih _ ?_ hinv2
          intro hnil
          exact hne (List.append_eq_nil.mp hnil).1

/-- `sendWithFailover` in terms of the pure retry run: try the primary; on
success return with `failoverUsed = false`, otherwise walk the chain
starting from the primary's log. -/
theorem sendWithFailover_eq {μ : Type} (msg : μ) (pn : String) (p : Transport μ)
    (cfg : FailoverConfig) (gp : String → Except String (Transport μ)) :
    sendWithFailover msg pn p cfg gp =
      (if (tryRun p msg pn (cfg.maxRetriesPerProvider.getD 1).toNat 0
            { success := false, error := some "No attempts made" }).1.success = true then
        { result :=
            { success := (tryRun p msg pn (cfg.maxRetriesPerProvider.getD 1).toNat 0
                { success := false, error := some "No attempts made" }).1.success
              error := (tryRun p msg pn (cfg.maxRetriesPerProvider.getD 1).toNat 0
                { success := false, error := some "No attempts made" }).1.error
              messageId := (tryRun p msg pn (cfg.maxRetriesPerProvider.getD 1).toNat 0
                { success := false, error := some "No attempts made" }).1.messageId
              provider := pn, failoverUsed := false
              failoverAttempts := (tryRun p msg pn (cfg.maxRetriesPerProvider.getD 1).toNat 0
                { success := false, error := some "No attempts made" }).2.1 }
          resolved := [], events := []
          sends := (tryRun p msg pn (cfg.maxRetriesPerProvider.getD 1).toNat 0
            { success := false, error := some "No attempts made" }).2.2 }
      else
        chainLoop msg pn cfg.onFailover gp (cfg.maxRetriesPerProvider.getD 1) cfg.chain
          { attempts := (tryRun p msg pn (cfg.maxRetriesPerProvider.getD 1).toNat 0
              { success := false, error := some "No attempts made" }).2.1
            resolved := [], events := []
            sends := (tryRun p msg pn (cfg.maxRetriesPerProvider.getD 1).toNat 0
              { success := false, error := some "No attempts made" }).2.2 }) := by
  simp only [sendWithFailover]
  rw [tryProvider_eq_tryRun]
  simp [OrchState.empty]

/-! ### Exception taming (claim C1)

`exnToFail` replaces a thrown `send` by a transport-reported failure whose
`error` is the exception's message — exactly the conversion the `catch`
branch of `tryProvider` performs. -/

/-- The retry loop treats a tamed transport identically to the raw one,
provided no exception message is empty (an empty message is recorded for
a throw but dropped, being falsy, for a reported failure). -/
theorem tryRun_tame {μ : Type} (p : Transport μ) (msg : μ) (name : String)
    (hp : exnMsgsNonEmpty p msg) (fuel : Nat) :
    ∀ (attempt : Nat) (last : MailResponse),
      tryRun (tameT p) msg name fuel attempt last = tryRun p msg name fuel attempt last := by
  induction fuel with
  | zero => intro att last; simp [tryRun]
  | succ f ih =>
    intro att last
    simp only [tryRun]
    cases h : p msg att with
    | ret resp =>
      have ht : tameT p msg att = SendResult.ret resp := by
        simp [tameT, h, exnToFail]
      rw [ht]
      by_cases hs : resp.success = true
      · simp [hs]
      · simp [hs, ih]
    | exn m =>
      have hm : m ≠ "" := hp att m h
      have ht : tameT p msg att =
          SendResult.ret { success := false, error := some m } := by
        simp [tameT, h, exnToFail]
      rw [ht]
      have hdet : mkDetail name { success := false, error := some m } =
          (⟨name, false, some m⟩ : FailoverDetail) := by
        simp [mkDetail, strTruthy, hm]
      simp [hdet, ih]

/-- The chain walk treats a tamed resolver identically to the raw one,
provided no resolvable transport throws with an empty message. -/
theorem chainLoop_tame {μ : Type} (msg : μ) (pn : String)
    (cb : Option (FailoverEvent → Except String Unit))
    (gp : String → Except String (Transport μ)) (mr : Int)
    (hgp : ∀ c t, gp c = Except.ok t → exnMsgsNonEmpty t msg) :
    ∀ (chain : List String) (st : OrchState),
      chainLoop msg pn cb (tameR gp) mr chain st = chainLoop msg pn cb gp mr chain st := by
  intro chain
  induction chain with
  | nil => intro st; rfl
  | cons c rest ih =>
    intro st
    by_cases hc : c = pn
    · subst hc
      rw [chainLoop_cons_skip, chainLoop_cons_skip, ih]
    · cases hg : gp c with
      | error e =>
        have hg2 : tameR gp c = Except.error e := by simp [tameR, hg, Except.map]
        rw [chainLoop_cons_err msg pn cb (tameR gp) mr c rest st hc e hg2,
          chainLoop_cons_err msg pn cb gp mr c rest st hc e hg, ih]
      | ok t =>
        have hg2 : tameR gp c = Except.ok (tameT t) := by simp [tameR, hg, Except.map]
        rw [chainLoop_cons_ok msg pn cb (tameR gp) mr c rest st hc (tameT t) hg2,
          chainLoop_cons_ok msg pn cb gp mr c rest st hc t hg,
          tryRun_tame t msg c (hgp c t hg) mr.toNat, ih]

/-- A successful invocation's record: success with no error field. -/
theorem recordOf_succ (name : String) (s : SendResult) (h : sendSucceeded s) :
    recordOf name s = ⟨name, true, none⟩ := by
  cases s with
  | ret r =>
    have hr : r.success = true := h
    simp [recordOf, mkDetail, hr]
  | exn m =>
    exact absurd h (by simp [sendSucceeded, retOf])

/-- A failed invocation's record: failure, naming the provider. -/
theorem recordOf_fail_eq (name : String) (s : SendResult) (h : sendFailed s) :
    recordOf name s = ⟨name, false, (recordOf name s).error⟩ := by
  cases s with
  | ret r =>
    have hr : r.success = false := h
    simp [recordOf, mkDetail, hr]
  | exn m => rfl

/-! ### The claims -/

/-- C5.  For every primary transport whose `send` always succeeds, every
chain, and every resolver (including one that always throws),
`sendWithFailover` returns `success = true`, `provider = primaryName`,
`failoverUsed = false`, and a one-element attempt list; the resolver is
never invoked and no `onFailover` callback ever fires. -/
theorem sendWithFailover_primary_success_no_failover {μ : Type} (msg : μ)
    (pn : String) (p : Transport μ) (cfg : FailoverConfig)
    (gp : String → Except String (Transport μ))
    (hs : ∀ i, sendSucceeded (p msg i))
    (hinv : 1 ≤ cfg.maxRetriesPerProvider.getD 1) :
    (sendWithFailover msg pn p cfg gp).result.success = true ∧
    (sendWithFailover msg pn p cfg gp).result.provider = pn ∧
    (sendWithFailover msg pn p cfg gp).result.failoverUsed = false ∧
    (sendWithFailover msg pn p cfg gp).result.failoverAttempts.length = 1 ∧
    (sendWithFailover msg pn p cfg gp).resolved = [] ∧
    (sendWithFailover msg pn p cfg gp).events = [] := by
  have hrun := tryRun_succ p msg pn 0 (cfg.maxRetriesPerProvider.getD 1).toNat 0
    { success := false, error := some "No attempts made" }
    (by intro i hi; omega) (by simpa using hs 0) (by omega)
  have hsucc : (tryRun p msg pn (cfg.maxRetriesPerProvider.getD 1).toNat 0
      { success := false, error := some "No attempts made" }).1.success = true := by
    rw [hrun.1]
    simpa using hs 0
  rw [sendWithFailover_eq, if_pos hsucc]
  exact ⟨hsucc, rfl, rfl, hrun.2.1, rfl, rfl⟩

/-- Witness for C5 at concrete inputs. -/
theorem sendWithFailover_primary_success_no_failover_witness :
    (∀ i, sendSucceeded (wOkT () i)) ∧
    1 ≤ wCfg5.maxRetriesPerProvider.getD 1 ∧
    ((sendWithFailover () "p" wOkT wCfg5 wResolver).result.success = true ∧
      (sendWithFailover () "p" wOkT wCfg5 wResolver).result.provider = "p" ∧
      (sendWithFailover () "p" wOkT wCfg5 wResolver).result.failoverUsed = false ∧
      (sendWithFailover () "p" wOkT wCfg5 wResolver).result.failoverAttempts.length = 1 ∧
      (sendWithFailover () "p" wOkT wCfg5 wResolver).resolved = [] ∧
      (sendWithFailover () "p" wOkT wCfg5 wResolver).events = []) :=
  ⟨fun _ => rfl, by decide,
    sendWithFailover_primary_success_no_failover () "p" wOkT wCfg5 wResolver
      (fun _ => rfl) (by decide)⟩

/-- C4.  For a primary transport that fails its first `k - 1` invocations
and succeeds on the `k`-th, with `maxRetriesPerProvider ≥ k`, the
orchestrator returns success on the primary itself: the attempt list has
length exactly `k` (retrying stops at the first success, with exactly `k`
`send` calls made, all to the primary), and no chain entry is resolved. -/
theorem sendWithFailover_retry_then_recover {μ : Type} (msg : μ) (pn : String)
    (p : Transport μ) (cfg : FailoverConfig)
    (gp : String → Except String (Transport μ)) (k : Nat)
    (hk : 1 ≤ k)
    (hfail : ∀ i, i < k - 1 → sendFailed (p msg i))
    (hsucc : sendSucceeded (p msg (k - 1)))
    (hmr : (k : Int) ≤ cfg.maxRetriesPerProvider.getD 1) :
    (sendWithFailover msg pn p cfg gp).result.success = true ∧
    (sendWithFailover msg pn p cfg gp).result.provider = pn ∧
    (sendWithFailover msg pn p cfg gp).result.failoverUsed = false ∧
    (sendWithFailover msg pn p cfg gp).result.failoverAttempts.length = k ∧
    (sendWithFailover msg pn p cfg gp).sends.length = k ∧
    (∀ q ∈ (sendWithFailover msg pn p cfg gp).sends, q.1 = pn) ∧
    (sendWithFailover msg pn p cfg gp).resolved = [] := by
  have hrun := tryRun_succ p msg pn (k - 1) (cfg.maxRetriesPerProvider.getD 1).toNat 0
    { success := false, error := some "No attempts made" }
    (by intro i hi; simpa using hfail i hi) (by simpa using hsucc) (by omega)
  have hsucc2 : (tryRun p msg pn (cfg.maxRetriesPerProvider.getD 1).toNat 0
      { success := false, error := some "No attempts made" }).1.success = true := by
    rw [hrun.1]
    simpa using hsucc
  rw [sendWithFailover_eq, if_pos hsucc2]
  refine ⟨hsucc2, rfl, rfl, by rw [hrun.2.1]; omega, by rw [hrun.2.2]; omega, ?_, rfl⟩
  exact (tryRun_mailers p msg pn (cfg.maxRetriesPerProvider.getD 1).toNat 0
    { success := false, error := some "No attempts made" }).2

/-- Witness for C4: fails twice, succeeds on the third call, three retries
allowed. -/
theorem sendWithFailover_retry_then_recover_witness :
    1 ≤ 3 ∧ (∀ i, i < 3 - 1 → sendFailed (wRetryT () i)) ∧
    sendSucceeded (wRetryT () (3 - 1)) ∧
    ((3 : Nat) : Int) ≤ wCfg4.maxRetriesPerProvider.getD 1 ∧
    ((sendWithFailover () "p" wRetryT wCfg4 wResolver).result.success = true ∧
      (sendWithFailover () "p" wRetryT wCfg4 wResolver).result.provider = "p" ∧
      (sendWithFailover () "p" wRetryT wCfg4 wResolver).result.failoverUsed = false ∧
      (sendWithFailover () "p" wRetryT wCfg4 wResolver).result.failoverAttempts.length = 3 ∧
      (sendWithFailover () "p" wRetryT wCfg4 wResolver).sends.length = 3 ∧
      (∀ q ∈ (sendWithFailover () "p" wRetryT wCfg4 wResolver).sends, q.1 = "p") ∧
      (sendWithFailover () "p" wRetryT wCfg4 wResolver).resolved = []) :=
  ⟨by decide,
    by
      intro i hi
      interval_cases i
      · exact rfl
      · exact rfl,
    rfl, by decide,
    sendWithFailover_retry_then_recover () "p" wRetryT wCfg4 wResolver 3
      (by decide)
      (by
        intro i hi
        interval_cases i
        · exact rfl
        · exact rfl)
      rfl (by decide)⟩

/-- C2.  For a primary that always fails and a chain in which every entry
is the primary's name, unresolvable, or resolves to an always-failing
transport, with `maxRetriesPerProvider = 1`, the whole operation exhausts:
`success = false`, `error = "All providers failed"`,
`provider = primaryName`, `failoverUsed = true`, and the attempt list has
length `1 +` the number of resolvable non-primary chain entries. -/
theorem sendWithFailover_full_exhaustion {μ : Type} (msg : μ) (pn : String)
    (p : Transport μ) (cfg : FailoverConfig)
    (gp : String → Except String (Transport μ))
    (hp : ∀ i, sendFailed (p msg i))
    (hm : cfg.maxRetriesPerProvider = some 1)
    (hchain : ∀ c ∈ cfg.chain, deadEntry msg pn gp c) :
    (sendWithFailover msg pn p cfg gp).result.success = false ∧
    (sendWithFailover msg pn p cfg gp).result.error = some "All providers failed" ∧
    (sendWithFailover msg pn p cfg gp).result.provider = pn ∧
    (sendWithFailover msg pn p cfg gp).result.failoverUsed = true ∧
    (sendWithFailover msg pn p cfg gp).result.failoverAttempts.length =
      1 + countLive pn gp cfg.chain := by
  have hmr : cfg.maxRetriesPerProvider.getD 1 = 1 := by rw [hm]; rfl
  have hrun := tryRun_fail p msg pn hp (cfg.maxRetriesPerProvider.getD 1).toNat 0
    { success := false, error := some "No attempts made" } rfl
  rw [sendWithFailover_eq, if_neg (by rw [hrun.1]; simp)]
  obtain ⟨st2, g1, g2, g3⟩ := chainLoop_dead msg pn cfg.onFailover gp
    (cfg.maxRetriesPerProvider.getD 1) cfg.chain []
    { attempts := (tryRun p msg pn (cfg.maxRetriesPerProvider.getD 1).toNat 0
        { success := false, error := some "No attempts made" }).2.1
      resolved := [], events := []
      sends := (tryRun p msg pn (cfg.maxRetriesPerProvider.getD 1).toNat 0
        { success := false, error := some "No attempts made" }).2.2 } hchain
  rw [List.append_nil] at g1
  rw [g1]
  refine ⟨by simp [chainLoop], by simp [chainLoop], by simp [chainLoop],
    by simp [chainLoop], ?_⟩
  have hattlen : (chainLoop msg pn cfg.onFailover gp (cfg.maxRetriesPerProvider.getD 1)
      [] st2).result.failoverAttempts = st2.attempts := by
    simp [chainLoop]
  rw [hattlen, g2, hmr]
  have h1 := hrun.2.1
  rw [hmr] at h1
  simp only [Int.toNat_one, one_mul] at h1 ⊢
  simp [h1, Nat.add_comm]

/-- Witness for C2: all three chain entries are dead, one is live
(resolvable and non-primary), so two attempt records remain. -/
theorem sendWithFailover_full_exhaustion_witness :
    (∀ i, sendFailed (wFailT () i)) ∧
    wCfg2.maxRetriesPerProvider = some 1 ∧
    (∀ c ∈ wCfg2.chain, deadEntry () "p" wResolver c) ∧
    ((sendWithFailover () "p" wFailT wCfg2 wResolver).result.success = false ∧
      (sendWithFailover () "p" wFailT wCfg2 wResolver).result.error =
        some "All providers failed" ∧
      (sendWithFailover () "p" wFailT wCfg2 wResolver).result.provider = "p" ∧
      (sendWithFailover () "p" wFailT wCfg2 wResolver).result.failoverUsed = true ∧
      (sendWithFailover () "p" wFailT wCfg2 wResolver).result.failoverAttempts.length =
        1 + countLive "p" wResolver wCfg2.chain) :=
  ⟨fun _ => rfl, rfl,
    (by
      intro c hc
      simp only [wCfg2, List.mem_cons, List.not_mem_nil, or_false] at hc
      rcases hc with rfl | rfl | rfl
      · exact Or.inr trivial
      · exact Or.inl rfl
      · exact Or.inr (fun _ => rfl)),
    sendWithFailover_full_exhaustion () "p" wFailT wCfg2 wResolver
      (fun _ => rfl) rfl
      (by
        intro c hc
        simp only [wCfg2, List.mem_cons, List.not_mem_nil, or_false] at hc
        rcases hc with rfl | rfl | rfl
        · exact Or.inr trivial
        · exact Or.inl rfl
        · exact Or.inr (fun _ => rfl))⟩

/-- C3.  For a primary that always fails and a chain `[A, B]` where the
non-primary entry `A` resolves to an always-succeeding transport, under
the default single-retry policy the result names `A` with
`failoverUsed = true`; the attempt list is exactly one failed primary
record followed by `A`'s success record, only `A` is ever resolved, the
only `send` calls are the primary's and `A`'s first, and the returned
`messageId` is the one from `A`'s successful outcome. -/
theorem sendWithFailover_first_chain_success {μ : Type} (msg : μ) (pn : String)
    (p : Transport μ) (cfg : FailoverConfig)
    (gp : String → Except String (Transport μ)) (A B : String) (tA : Transport μ)
    (hp : ∀ i, sendFailed (p msg i))
    (hchain : cfg.chain = [A, B])
    (hmr : cfg.maxRetriesPerProvider.getD 1 = 1)
    (hApn : ¬(A = pn))
    (hA : gp A = Except.ok tA)
    (hAs : ∀ i, sendSucceeded (tA msg i)) :
    (sendWithFailover msg pn p cfg gp).result.provider = A ∧
    (sendWithFailover msg pn p cfg gp).result.failoverUsed = true ∧
    (sendWithFailover msg pn p cfg gp).result.success = true ∧
    (∃ er, (sendWithFailover msg pn p cfg gp).result.failoverAttempts =
      [⟨pn, false, er⟩, ⟨A, true, none⟩]) ∧
    (sendWithFailover msg pn p cfg gp).resolved = [(A, true)] ∧
    (sendWithFailover msg pn p cfg gp).sends = [(pn, 0), (A, 0)] ∧
    (sendWithFailover msg pn p cfg gp).result.messageId =
      (retOf (tA msg 0)).messageId := by
  have hmt : (cfg.maxRetriesPerProvider.getD 1).toNat = 1 := by rw [hmr]; rfl
  have hprun : tryRun p msg pn (cfg.maxRetriesPerProvider.getD 1).toNat 0
      { success := false, error := some "No attempts made" } =
      (retOf (p msg 0), [recordOf pn (p msg 0)], [(pn, 0)]) := by
    rw [hmt, tryRun_one]
  have hAfst : sendSucceeded (tA msg 0) := hAs 0
  have hArun : tryRun tA msg A (cfg.maxRetriesPerProvider.getD 1).toNat 0
      { success := false, error := some "No attempts made" } =
      (retOf (tA msg 0), [recordOf A (tA msg 0)], [(A, 0)]) := by
    rw [hmt, tryRun_one]
  rw [sendWithFailover_eq, if_neg (by rw [hprun]; simpa using hp 0), hchain, hprun,
    chainLoop_cons_ok msg pn cfg.onFailover gp (cfg.maxRetriesPerProvider.getD 1)
      A [B] _ hApn tA hA, hArun, if_pos (by simpa using hAfst)]
  refine ⟨rfl, rfl, by simpa using hAfst, ?_, by simp, by simp, rfl⟩
  refine ⟨(recordOf pn (p msg 0)).error, ?_⟩
  show [recordOf pn (p msg 0)] ++ [recordOf A (tA msg 0)] = _
  rw [recordOf_succ A (tA msg 0) hAfst, recordOf_fail_eq pn (p msg 0) (hp 0)]
  rfl

/-- Witness for C3 at concrete inputs. -/
theorem sendWithFailover_first_chain_success_witness :
    (∀ i, sendFailed (wFailT () i)) ∧
    wCfg3.chain = ["ses", "smtp"] ∧
    wCfg3.maxRetriesPerProvider.getD 1 = 1 ∧
    ¬(("ses" : String) = "p") ∧
    wResolver "ses" = Except.ok wOkT ∧
    (∀ i, sendSucceeded (wOkT () i)) ∧
    ((sendWithFailover () "p" wFailT wCfg3 wResolver).result.provider = "ses" ∧
      (sendWithFailover () "p" wFailT wCfg3 wResolver).result.failoverUsed = true ∧
      (sendWithFailover () "p" wFailT wCfg3 wResolver).result.success = true ∧
      (∃ er, (sendWithFailover () "p" wFailT wCfg3 wResolver).result.failoverAttempts =
        [⟨"p", false, er⟩, ⟨"ses", true, none⟩]) ∧
      (sendWithFailover () "p" wFailT wCfg3 wResolver).resolved = [("ses", true)] ∧
      (sendWithFailover () "p" wFailT wCfg3 wResolver).sends = [("p", 0), ("ses", 0)] ∧
      (sendWithFailover () "p" wFailT wCfg3 wResolver).result.messageId =
        (retOf (wOkT () 0)).messageId) :=
  ⟨fun _ => rfl, rfl, by decide, by decide, rfl, fun _ => rfl,
    sendWithFailover_first_chain_success () "p" wFailT wCfg3 wResolver "ses" "smtp" wOkT
      (fun _ => rfl) rfl (by decide) (by decide) rfl (fun _ => rfl)⟩

/-- C9.  When the chain contains an entry equal to the primary's name,
that entry is skipped before resolution: the resolver is never called with
the primary's name during the chain walk, and after the primary's own
retry segment no attempt record carries the primary's name. -/
theorem sendWithFailover_primary_chain_entry_skip {μ : Type} (msg : μ) (pn : String)
    (p : Transport μ) (cfg : FailoverConfig)
    (gp : String → Except String (Transport μ))
    (hmem : pn ∈ cfg.chain) :
    (∀ q ∈ (sendWithFailover msg pn p cfg gp).resolved, q.1 ≠ pn) ∧
    ∃ d0 rest, (sendWithFailover msg pn p cfg gp).result.failoverAttempts = d0 ++ rest ∧
      (∀ r ∈ d0, r.mailer = pn) ∧ (∀ r ∈ rest, r.mailer ≠ pn) := by
  rw [sendWithFailover_eq]
  by_cases hs : (tryRun p msg pn (cfg.maxRetriesPerProvider.getD 1).toNat 0
      { success := false, error := some "No attempts made" }).1.success = true
  · rw [if_pos hs]
    exact ⟨by simp,
      (tryRun p msg pn (cfg.maxRetriesPerProvider.getD 1).toNat 0
        { success := false, error := some "No attempts made" }).2.1, [],
      by simp,
      (tryRun_mailers p msg pn (cfg.maxRetriesPerProvider.getD 1).toNat 0
        { success := false, error := some "No attempts made" }).1,
      by simp⟩
  · rw [if_neg hs]
    obtain ⟨d, rd, ed, sd, h1, h2, h3, h4, h5, h6, h7, h8⟩ :=
      chainLoop_mono msg pn cfg.onFailover gp (cfg.maxRetriesPerProvider.getD 1)
        cfg.chain
        { attempts := (tryRun p msg pn (cfg.maxRetriesPerProvider.getD 1).toNat 0
            { success := false, error := some "No attempts made" }).2.1
          resolved := [], events := []
          sends := (tryRun p msg pn (cfg.maxRetriesPerProvider.getD 1).toNat 0
            { success := false, error := some "No attempts made" }).2.2 }
    refine ⟨?_,
      (tryRun p msg pn (cfg.maxRetriesPerProvider.getD 1).toNat 0
        { success := false, error := some "No attempts made" }).2.1, d,
      by simpa using h1,
      (tryRun_mailers p msg pn (cfg.maxRetriesPerProvider.getD 1).toNat 0
        { success := false, error := some "No attempts made" }).1,
      fun r hr => (h5 r hr).1⟩
    intro q hq
    rw [h2] at hq
    simp only [List.nil_append] at hq
    exact h6 q hq

/-- Witness for C9 at concrete inputs. -/
theorem sendWithFailover_primary_chain_entry_skip_witness :
    ("p" : String) ∈ wCfg9.chain ∧
    ((∀ q ∈ (sendWithFailover () "p" wFailT wCfg9 wResolver).resolved, q.1 ≠ "p") ∧
      ∃ d0 rest,
        (sendWithFailover () "p" wFailT wCfg9 wResolver).result.failoverAttempts =
          d0 ++ rest ∧
        (∀ r ∈ d0, r.mailer = "p") ∧ (∀ r ∈ rest, r.mailer ≠ "p")) :=
  ⟨by decide,
    sendWithFailover_primary_chain_entry_skip () "p" wFailT wCfg9 wResolver (by decide)⟩

/-- No event fires when no attempt record exists yet. -/
theorem firedEvents_nil (cb : Option (FailoverEvent → Except String Unit)) (c : String) :
    firedEvents cb c [] = [] := by
  cases cb with
  | none => rfl
  | some cbf => rfl

/-- With a non-positive retry budget the chain walk leaves the logs empty
(apart from resolver calls) and ends in exhaustion. -/
theorem chainLoop_zero {μ : Type} (msg : μ) (pn : String)
    (cb : Option (FailoverEvent → Except String Unit))
    (gp : String → Except String (Transport μ)) (mr : Int) (hmr : mr.toNat = 0) :
    ∀ (chain : List String) (st : OrchState),
      st.attempts = [] → st.events = [] → st.sends = [] →
      (chainLoop msg pn cb gp mr chain st).result =
        ⟨false, some "All providers failed", none, pn, true, []⟩ ∧
      (chainLoop msg pn cb gp mr chain st).events = [] ∧
      (chainLoop msg pn cb gp mr chain st).sends = [] := by
  intro chain
  induction chain with
  | nil =>
    intro st h1 h2 h3
    refine ⟨?_, by simpa [chainLoop] using h2, by simpa [chainLoop] using h3⟩
    simp [chainLoop, h1]
  | cons c rest ih =>
    intro st h1 h2 h3
    by_cases hc : c = pn
    · subst hc
      rw [chainLoop_cons_skip]
      exact ih st h1 h2 h3
    · cases hg : gp c with
      | error e =>
        rw [chainLoop_cons_err msg pn cb gp mr c rest st hc e hg]
        exact ih _ h1 h2 h3
      | ok t =>
        rw [chainLoop_cons_ok msg pn cb gp mr c rest st hc t hg, hmr]
        rw [if_neg (by simp [tryRun])]
        refine ih _ ?_ ?_ ?_
        · simp [tryRun, h1]
        · simp [tryRun, h1, h2, firedEvents_nil]
        · simp [tryRun, h3]

/-- C10.  With `maxRetriesPerProvider ≤ 0` (violating the stated policy
invariant) `sendWithFailover` still returns normally with no `send` ever
invoked: every `tryProvider` call yields the `No attempts made` failure
and leaves the log untouched, no attempt records are created, no
`onFailover` callback fires, and the final result is the exhaustion result
with an empty attempt list. -/
theorem sendWithFailover_nonpositive_retries {μ : Type} (msg : μ) (pn : String)
    (p : Transport μ) (cfg : FailoverConfig)
    (gp : String → Except String (Transport μ)) (m : Int)
    (hm : cfg.maxRetriesPerProvider = some m) (hm0 : m ≤ 0) :
    (sendWithFailover msg pn p cfg gp).result =
      ⟨false, some "All providers failed", none, pn, true, []⟩ ∧
    (sendWithFailover msg pn p cfg gp).events = [] ∧
    (sendWithFailover msg pn p cfg gp).sends = [] ∧
    (∀ (t : Transport μ) (name : String) (st : OrchState),
      tryProvider t msg name m st =
        ({ success := false, error := some "No attempts made" }, st)) := by
  have hm2 : cfg.maxRetriesPerProvider.getD 1 = m := by rw [hm]; rfl
  have hmt : m.toNat = 0 := by omega
  have htp : ∀ (t : Transport μ) (name : String) (st : OrchState),
      tryProvider t msg name m st =
        ({ success := false, error := some "No attempts made" }, st) := by
    intro t name st
    rw [tryProvider_eq_tryRun, hmt]
    simp [tryRun]
  have hbranch : sendWithFailover msg pn p cfg gp =
      chainLoop msg pn cfg.onFailover gp m cfg.chain
        { attempts := [], resolved := [], events := [], sends := [] } := by
    rw [sendWithFailover_eq, hm2, hmt]
    rw [if_neg (by simp [tryRun])]
    simp [tryRun]
  have hres := chainLoop_zero msg pn cfg.onFailover gp m hmt cfg.chain
    ⟨[], [], [], []⟩ rfl rfl rfl
  rw [hbranch]
  exact ⟨hres.1, hres.2.1, hres.2.2, htp⟩

/-- Witness for C10 at concrete inputs. -/
theorem sendWithFailover_nonpositive_retries_witness :
    wCfg10.maxRetriesPerProvider = some 0 ∧ (0 : Int) ≤ 0 ∧
    ((sendWithFailover () "p" wOkT wCfg10 wResolver).result =
        ⟨false, some "All providers failed", none, "p", true, []⟩ ∧
      (sendWithFailover () "p" wOkT wCfg10 wResolver).events = [] ∧
      (sendWithFailover () "p" wOkT wCfg10 wResolver).sends = [] ∧
      (∀ (t : Transport Unit) (name : String) (st : OrchState),
        tryProvider t () name 0 st =
          ({ success := false, error := some "No attempts made" }, st))) :=
  ⟨rfl, by decide,
    sendWithFailover_nonpositive_retries () "p" wOkT wCfg10 wResolver 0 rfl (by decide)⟩

/-- C7.  For identical transports and resolver, a run whose `onFailover`
callback always throws returns the same `FinalResult` (success, provider,
`failoverUsed` and the full attempt sequence), the same resolver log and
the same send log as the run with the callback absent: callback exceptions
are swallowed and affect neither attempt recording nor the chain walk. -/
theorem sendWithFailover_callback_isolation {μ : Type} (msg : μ) (pn : String)
    (p : Transport μ) (cfg : FailoverConfig)
    (gp : String → Except String (Transport μ))
    (cb : FailoverEvent → Except String Unit)
    (hcb : ∀ e, ∃ m, cb e = Except.error m) :
    (sendWithFailover msg pn p { cfg with onFailover := some cb } gp).result =
      (sendWithFailover msg pn p { cfg with onFailover := none } gp).result ∧
    (sendWithFailover msg pn p { cfg with onFailover := some cb } gp).resolved =
      (sendWithFailover msg pn p { cfg with onFailover := none } gp).resolved ∧
    (sendWithFailover msg pn p { cfg with onFailover := some cb } gp).sends =
      (sendWithFailover msg pn p { cfg with onFailover := none } gp).sends := by
  have e1 : ({ cfg with onFailover := some cb } : FailoverConfig).maxRetriesPerProvider =
      cfg.maxRetriesPerProvider := rfl
  have e2 : ({ cfg with onFailover := none } : FailoverConfig).maxRetriesPerProvider =
      cfg.maxRetriesPerProvider := rfl
  have e3 : ({ cfg with onFailover := some cb } : FailoverConfig).chain = cfg.chain := rfl
  have e4 : ({ cfg with onFailover := none } : FailoverConfig).chain = cfg.chain := rfl
  have e5 : ({ cfg with onFailover := some cb } : FailoverConfig).onFailover = some cb := rfl
  have e6 : ({ cfg with onFailover := none } : FailoverConfig).onFailover = none := rfl
  rw [sendWithFailover_eq, sendWithFailover_eq, e1, e2, e3, e4, e5, e6]
  by_cases hs : (tryRun p msg pn (cfg.maxRetriesPerProvider.getD 1).toNat 0
      { success := false, error := some "No attempts made" }).1.success = true
  · rw [if_pos hs, if_pos hs]
    exact ⟨rfl, rfl, rfl⟩
  · rw [if_neg hs, if_neg hs]
    exact chainLoop_callback_irrel msg pn gp (cfg.maxRetriesPerProvider.getD 1) cb
      cfg.chain _ _ rfl rfl rfl

/-- Witness for C7 at concrete inputs. -/
theorem sendWithFailover_callback_isolation_witness :
    (∀ e, ∃ m, wThrowCb e = Except.error m) ∧
    ((sendWithFailover () "p" wFailT { wCfg7 with onFailover := some wThrowCb }
        wResolver).result =
      (sendWithFailover () "p" wFailT { wCfg7 with onFailover := none }
        wResolver).result ∧
    (sendWithFailover () "p" wFailT { wCfg7 with onFailover := some wThrowCb }
        wResolver).resolved =
      (sendWithFailover () "p" wFailT { wCfg7 with onFailover := none }
        wResolver).resolved ∧
    (sendWithFailover () "p" wFailT { wCfg7 with onFailover := some wThrowCb }
        wResolver).sends =
      (sendWithFailover () "p" wFailT { wCfg7 with onFailover := none }
        wResolver).sends) :=
  ⟨fun _ => ⟨"cb", rfl⟩,
    sendWithFailover_callback_isolation () "p" wFailT wCfg7 wResolver wThrowCb
      (fun _ => ⟨"cb", rfl⟩)⟩

/-- C6.  With a callback supplied and the policy invariant
`maxRetriesPerProvider ≥ 1`, the callback fires exactly once per
transition to a resolvable non-primary chain entry (one event per
successful resolution, in order, never once per retry); each event's
`failedTransport` and `error` come from the most recent attempt record
(the record at position `attemptIndex - 1`), its `attemptIndex` is the
length of the attempt list before the transition's own attempts begin
(the record at position `attemptIndex` starts the next transport's
segment), and its `nextTransport` is the resolved entry's name. -/
theorem sendWithFailover_onFailover_events {μ : Type} (msg : μ) (pn : String)
    (p : Transport μ) (cfg : FailoverConfig)
    (gp : String → Except String (Transport μ))
    (cb : FailoverEvent → Except String Unit)
    (hcb : cfg.onFailover = some cb)
    (hinv : 1 ≤ cfg.maxRetriesPerProvider.getD 1) :
    (sendWithFailover msg pn p cfg gp).events.length =
      ((sendWithFailover msg pn p cfg gp).resolved.filter (fun q => q.2)).length ∧
    (sendWithFailover msg pn p cfg gp).events.map (fun e => e.nextMailer) =
      ((sendWithFailover msg pn p cfg gp).resolved.filter (fun q => q.2)).map
        (fun q => q.1) ∧
    ∀ e ∈ (sendWithFailover msg pn p cfg gp).events, 1 ≤ e.attemptIndex ∧
      (∃ rec, (sendWithFailover msg pn p cfg gp).result.failoverAttempts[
          e.attemptIndex - 1]? = some rec ∧
        rec.mailer = e.failedMailer ∧ e.error = rec.error.getD "Unknown error") ∧
      (∃ rec2, (sendWithFailover msg pn p cfg gp).result.failoverAttempts[
          e.attemptIndex]? = some rec2 ∧ rec2.mailer = e.nextMailer) := by
  rw [sendWithFailover_eq]
  by_cases hs : (tryRun p msg pn (cfg.maxRetriesPerProvider.getD 1).toNat 0
      { success := false, error := some "No attempts made" }).1.success = true
  · rw [if_pos hs]
    exact ⟨rfl, rfl, fun e he => absurd he (List.not_mem_nil e)⟩
  · rw [if_neg hs, hcb]
    exact chainLoop_eventInv msg pn gp (cfg.maxRetriesPerProvider.getD 1) cb
      (by omega) cfg.chain
      { attempts := (tryRun p msg pn (cfg.maxRetriesPerProvider.getD 1).toNat 0
          { success := false, error := some "No attempts made" }).2.1
        resolved := [], events := []
        sends := (tryRun p msg pn (cfg.maxRetriesPerProvider.getD 1).toNat 0
          { success := false, error := some "No attempts made" }).2.2 }
      (tryRun_ne p msg pn (cfg.maxRetriesPerProvider.getD 1).toNat 0
        { success := false, error := some "No attempts made" } (by omega))
      ⟨rfl, rfl, fun e he => absurd he (List.not_mem_nil e)⟩

/-- Witness for C6 at concrete inputs. -/
theorem sendWithFailover_onFailover_events_witness :
    wCfg6.onFailover = some wThrowCb ∧
    1 ≤ wCfg6.maxRetriesPerProvider.getD 1 ∧
    ((sendWithFailover () "p" wFailT wCfg6 wResolver).events.length =
      ((sendWithFailover () "p" wFailT wCfg6 wResolver).resolved.filter
        (fun q => q.2)).length ∧
    (sendWithFailover () "p" wFailT wCfg6 wResolver).events.map (fun e => e.nextMailer) =
      ((sendWithFailover () "p" wFailT wCfg6 wResolver).resolved.filter
        (fun q => q.2)).map (fun q => q.1) ∧
    ∀ e ∈ (sendWithFailover () "p" wFailT wCfg6 wResolver).events, 1 ≤ e.attemptIndex ∧
      (∃ rec, (sendWithFailover () "p" wFailT wCfg6 wResolver).result.failoverAttempts[
          e.attemptIndex - 1]? = some rec ∧
        rec.mailer = e.failedMailer ∧ e.error = rec.error.getD "Unknown error") ∧
      (∃ rec2, (sendWithFailover () "p" wFailT wCfg6 wResolver).result.failoverAttempts[
          e.attemptIndex]? = some rec2 ∧ rec2.mailer = e.nextMailer)) :=
  ⟨rfl, by decide,
    sendWithFailover_onFailover_events () "p" wFailT wCfg6 wResolver wThrowCb rfl
      (by decide)⟩

/-- C8.  If resolution throws for chain entry `X` while a later entry `Y`
(preceded only by dead entries) resolves to an always-succeeding
transport, the run returns `provider = Y`; no attempt record carries `X`,
no event names `X` as the next transport, and the whole run (result,
events, sends) equals the run on the chain with `X` removed. -/
theorem sendWithFailover_unresolvable_skip {μ : Type} (msg : μ) (pn : String)
    (p : Transport μ) (cfg : FailoverConfig)
    (gp : String → Except String (Transport μ))
    (pre post : List String) (X Y : String) (tY : Transport μ) (eX : String)
    (hp : ∀ i, sendFailed (p msg i))
    (hinv : 1 ≤ cfg.maxRetriesPerProvider.getD 1)
    (hchain : cfg.chain = pre ++ X :: Y :: post)
    (hpre : ∀ c ∈ pre, deadEntry msg pn gp c)
    (hX : ¬(X = pn)) (hgX : gp X = Except.error eX)
    (hY : ¬(Y = pn)) (hgY : gp Y = Except.ok tY)
    (hYs : ∀ i, sendSucceeded (tY msg i)) :
    (sendWithFailover msg pn p cfg gp).result.provider = Y ∧
    (sendWithFailover msg pn p cfg gp).result.success = true ∧
    (sendWithFailover msg pn p cfg gp).result.failoverUsed = true ∧
    (∀ r ∈ (sendWithFailover msg pn p cfg gp).result.failoverAttempts, r.mailer ≠ X) ∧
    (∀ e ∈ (sendWithFailover msg pn p cfg gp).events, e.nextMailer ≠ X) ∧
    (sendWithFailover msg pn p cfg gp).result =
      (sendWithFailover msg pn p { cfg with chain := pre ++ Y :: post } gp).result ∧
    (sendWithFailover msg pn p cfg gp).events =
      (sendWithFailover msg pn p { cfg with chain := pre ++ Y :: post } gp).events ∧
    (sendWithFailover msg pn p cfg gp).sends =
      (sendWithFailover msg pn p { cfg with chain := pre ++ Y :: post } gp).sends := by
  have hns : (tryRun p msg pn (cfg.maxRetriesPerProvider.getD 1).toNat 0
      { success := false, error := some "No attempts made" }).1.success = false :=
    (tryRun_fail p msg pn hp (cfg.maxRetriesPerProvider.getD 1).toNat 0
      { success := false, error := some "No attempts made" } rfl).1
  have hXokb : isOkB (gp X) = false := by rw [hgX]; rfl
  have hbr : sendWithFailover msg pn p cfg gp =
      chainLoop msg pn cfg.onFailover gp (cfg.maxRetriesPerProvider.getD 1) cfg.chain
        { attempts := (tryRun p msg pn (cfg.maxRetriesPerProvider.getD 1).toNat 0
            { success := false, error := some "No attempts made" }).2.1
          resolved := [], events := []
          sends := (tryRun p msg pn (cfg.maxRetriesPerProvider.getD 1).toNat 0
            { success := false, error := some "No attempts made" }).2.2 } := by
    rw [sendWithFailover_eq, if_neg (by rw [hns]; simp)]
  have hbr2 : sendWithFailover msg pn p { cfg with chain := pre ++ Y :: post } gp =
      chainLoop msg pn cfg.onFailover gp (cfg.maxRetriesPerProvider.getD 1)
        (pre ++ Y :: post)
        { attempts := (tryRun p msg pn (cfg.maxRetriesPerProvider.getD 1).toNat 0
            { success := false, error := some "No attempts made" }).2.1
          resolved := [], events := []
          sends := (tryRun p msg pn (cfg.maxRetriesPerProvider.getD 1).toNat 0
            { success := false, error := some "No attempts made" }).2.2 } := by
    rw [sendWithFailover_eq, if_neg (by rw [hns]; simp)]
  have hYsucc : (tryRun tY msg Y (cfg.maxRetriesPerProvider.getD 1).toNat 0
      { success := false, error := some "No attempts made" }).1.success = true := by
    have := tryRun_succ tY msg Y 0 (cfg.maxRetriesPerProvider.getD 1).toNat 0
      { success := false, error := some "No attempts made" }
      (by intro i hi; omega) (by simpa using hYs 0) (by omega)
    rw [this.1]
    simpa using hYs 0
  have hprov : (chainLoop msg pn cfg.onFailover gp (cfg.maxRetriesPerProvider.getD 1)
        cfg.chain
        { attempts := (tryRun p msg pn (cfg.maxRetriesPerProvider.getD 1).toNat 0
            { success := false, error := some "No attempts made" }).2.1
          resolved := [], events := []
          sends := (tryRun p msg pn (cfg.maxRetriesPerProvider.getD 1).toNat 0
            { success := false, error := some "No attempts made" }).2.2 }).result.provider
        = Y ∧
      (chainLoop msg pn cfg.onFailover gp (cfg.maxRetriesPerProvider.getD 1)
        cfg.chain
        { attempts := (tryRun p msg pn (cfg.maxRetriesPerProvider.getD 1).toNat 0
            { success := false, error := some "No attempts made" }).2.1
          resolved := [], events := []
          sends := (tryRun p msg pn (cfg.maxRetriesPerProvider.getD 1).toNat 0
            { success := false, error := some "No attempts made" }).2.2 }).result.success
        = true ∧
      (chainLoop msg pn cfg.onFailover gp (cfg.maxRetriesPerProvider.getD 1)
        cfg.chain
        { attempts := (tryRun p msg pn (cfg.maxRetriesPerProvider.getD 1).toNat 0
            { success := false, error := some "No attempts made" }).2.1
          resolved := [], events := []
          sends := (tryRun p msg pn (cfg.maxRetriesPerProvider.getD 1).toNat 0
            { success := false, error := some "No attempts made" }).2.2 }).result.failoverUsed
        = true := by
    rw [hchain]
    obtain ⟨st2, g1, g2, g3⟩ := chainLoop_dead msg pn cfg.onFailover gp
      (cfg.maxRetriesPerProvider.getD 1) pre (X :: Y :: post) _ hpre
    rw [g1, chainLoop_cons_err msg pn cfg.onFailover gp
        (cfg.maxRetriesPerProvider.getD 1) X (Y :: post) st2 hX eX hgX,
      chainLoop_cons_ok msg pn cfg.onFailover gp
        (cfg.maxRetriesPerProvider.getD 1) Y post _ hY tY hgY,
      if_pos hYsucc]
    exact ⟨rfl, hYsucc, rfl⟩
  obtain ⟨d, rd, ed, sd, h1, h2, h3, h4, h5, h6, h7, h8⟩ :=
    chainLoop_mono msg pn cfg.onFailover gp (cfg.maxRetriesPerProvider.getD 1)
      cfg.chain
      { attempts := (tryRun p msg pn (cfg.maxRetriesPerProvider.getD 1).toNat 0
          { success := false, error := some "No attempts made" }).2.1
        resolved := [], events := []
        sends := (tryRun p msg pn (cfg.maxRetriesPerProvider.getD 1).toNat 0
          { success := false, error := some "No attempts made" }).2.2 }
  have hequiv := chainLoop_skip_err msg pn cfg.onFailover gp
    (cfg.maxRetriesPerProvider.getD 1) X hX eX hgX pre (Y :: post)
    { attempts := (tryRun p msg pn (cfg.maxRetriesPerProvider.getD 1).toNat 0
        { success := false, error := some "No attempts made" }).2.1
      resolved := [], events := []
      sends := (tryRun p msg pn (cfg.maxRetriesPerProvider.getD 1).toNat 0
        { success := false, error := some "No attempts made" }).2.2 }
  rw [hbr, hbr2]
  refine ⟨hprov.1, hprov.2.1, hprov.2.2, ?_, ?_, ?_, ?_, ?_⟩
  · intro r hr
    rw [h1] at hr
    rcases List.mem_append.mp hr with hr | hr
    · simp only [] at hr
      have := (tryRun_mailers p msg pn (cfg.maxRetriesPerProvider.getD 1).toNat 0
        { success := false, error := some "No attempts made" }).1 r hr
      rw [this]
      intro hcon
      exact hX hcon.symm
    · intro hcon
      have := (h5 r hr).2
      rw [hcon, hXokb] at this
      cases this
  · intro e he
    rw [h3] at he
    simp only [List.nil_append] at he
    intro hcon
    have := (h7 e he).2
    rw [hcon, hXokb] at this
    cases this
  · rw [← hchain] at hequiv
    exact hequiv.1
  · rw [← hchain] at hequiv
    exact hequiv.2.1
  · rw [← hchain] at hequiv
    exact hequiv.2.2

/-- Witness for C8 at concrete inputs: `smtp` is a dead entry, `x` is
unresolvable, `ses` succeeds, `zzz` is never reached. -/
theorem sendWithFailover_unresolvable_skip_witness :
    (∀ i, sendFailed (wFailT () i)) ∧
    1 ≤ wCfg8.maxRetriesPerProvider.getD 1 ∧
    wCfg8.chain = ["smtp"] ++ "x" :: "ses" :: ["zzz"] ∧
    (∀ c ∈ ["smtp"], deadEntry () "p" wResolver c) ∧
    ¬(("x" : String) = "p") ∧ wResolver "x" = Except.error "not configured" ∧
    ¬(("ses" : String) = "p") ∧ wResolver "ses" = Except.ok wOkT ∧
    (∀ i, sendSucceeded (wOkT () i)) ∧
    ((sendWithFailover () "p" wFailT wCfg8 wResolver).result.provider = "ses" ∧
      (sendWithFailover () "p" wFailT wCfg8 wResolver).result.success = true ∧
      (∀ r ∈ (sendWithFailover () "p" wFailT wCfg8 wResolver).result.failoverAttempts,
        r.mailer ≠ "x") ∧
      (sendWithFailover () "p" wFailT wCfg8 wResolver).result =
        (sendWithFailover () "p" wFailT { wCfg8 with chain := ["smtp"] ++ "ses" :: ["zzz"] }
          wResolver).result) :=
  ⟨fun _ => rfl, by decide, rfl,
    (by
      intro c hc
      simp only [List.mem_singleton] at hc
      subst hc
      exact Or.inr (fun _ => rfl)),
    by decide, rfl, by decide, rfl, fun _ => rfl,
    (by
      have h := sendWithFailover_unresolvable_skip () "p" wFailT wCfg8 wResolver
        ["smtp"] ["zzz"] "x" "ses" wOkT "not configured"
        (fun _ => rfl) (by decide) rfl
        (by
          intro c hc
          simp only [List.mem_singleton] at hc
          subst hc
          exact Or.inr (fun _ => rfl))
        (by decide) rfl (by decide) rfl (fun _ => rfl)
      exact ⟨h.1, h.2.1, h.2.2.2.1, h.2.2.2.2.2.1⟩)⟩

/-- C1.  `sendWithFailover` is a total function of its inputs (no
exception reaches the caller), and a transport throw is caught and
converted into a transport-reported failure carrying the exception's
message: replacing every throw of every transport by that failed response
(`tameT` / `tameR`) leaves the entire run unchanged, and a throw on the
primary's first attempt is recorded as a failed record with that error at
the head of the attempt list. -/
theorem sendWithFailover_exception_absorbed {μ : Type} (msg : μ) (pn : String)
    (p : Transport μ) (cfg : FailoverConfig)
    (gp : String → Except String (Transport μ))
    (hp : exnMsgsNonEmpty p msg)
    (hgp : ∀ c t, gp c = Except.ok t → exnMsgsNonEmpty t msg) :
    sendWithFailover msg pn (tameT p) cfg (tameR gp) = sendWithFailover msg pn p cfg gp ∧
    ∀ m, p msg 0 = SendResult.exn m → 1 ≤ cfg.maxRetriesPerProvider.getD 1 →
      (sendWithFailover msg pn p cfg gp).result.failoverAttempts.head? =
        some ⟨pn, false, some m⟩ := by
  constructor
  · rw [sendWithFailover_eq, sendWithFailover_eq,
      tryRun_tame p msg pn hp (cfg.maxRetriesPerProvider.getD 1).toNat]
    by_cases hs : (tryRun p msg pn (cfg.maxRetriesPerProvider.getD 1).toNat 0
        { success := false, error := some "No attempts made" }).1.success = true
    · rw [if_pos hs, if_pos hs]
    · rw [if_neg hs, if_neg hs,
        chainLoop_tame msg pn cfg.onFailover gp (cfg.maxRetriesPerProvider.getD 1) hgp]
  · intro m hm hmr
    obtain ⟨f, hf⟩ : ∃ f, (cfg.maxRetriesPerProvider.getD 1).toNat = f + 1 :=
      ⟨(cfg.maxRetriesPerProvider.getD 1).toNat - 1, by omega⟩
    have hrec : recordOf pn (p msg 0) = ⟨pn, false, some m⟩ := by
      rw [hm]; rfl
    rw [sendWithFailover_eq]
    by_cases hs : (tryRun p msg pn (cfg.maxRetriesPerProvider.getD 1).toNat 0
        { success := false, error := some "No attempts made" }).1.success = true
    · rw [if_pos hs]
      show (tryRun p msg pn (cfg.maxRetriesPerProvider.getD 1).toNat 0
        { success := false, error := some "No attempts made" }).2.1.head? =
          some ⟨pn, false, some m⟩
      rw [hf, tryRun_head, hrec]
    · rw [if_neg hs]
      obtain ⟨d, rd, ed, sd, h1, h2, h3, h4, h5, h6, h7, h8⟩ :=
        chainLoop_mono msg pn cfg.onFailover gp (cfg.maxRetriesPerProvider.getD 1)
          cfg.chain
          { attempts := (tryRun p msg pn (cfg.maxRetriesPerProvider.getD 1).toNat 0
              { success := false, error := some "No attempts made" }).2.1
            resolved := [], events := []
            sends := (tryRun p msg pn (cfg.maxRetriesPerProvider.getD 1).toNat 0
              { success := false, error := some "No attempts made" }).2.2 }
      rw [h1]
      simp only [List.head?_append]
      rw [hf, tryRun_head, hrec]
      rfl

/-- Witness for C1 at concrete inputs: a primary that always throws
`boom`. -/
theorem sendWithFailover_exception_absorbed_witness :
    exnMsgsNonEmpty wThrowT () ∧
    (∀ c t, wResolver c = Except.ok t → exnMsgsNonEmpty t ()) ∧
    (sendWithFailover () "p" (tameT wThrowT) wCfg1 (tameR wResolver) =
      sendWithFailover () "p" wThrowT wCfg1 wResolver ∧
    ∀ m, wThrowT () 0 = SendResult.exn m → 1 ≤ wCfg1.maxRetriesPerProvider.getD 1 →
      (sendWithFailover () "p" wThrowT wCfg1 wResolver).result.failoverAttempts.head? =
        some ⟨"p", false, some m⟩) :=
  ⟨(by
      intro i m h
      simp only [wThrowT, SendResult.exn.injEq] at h
      subst h
      decide),
    (by
      intro c t hct i m h
      simp only [wResolver] at hct
      by_cases h1 : c = "ses"
      · rw [if_pos h1] at hct
        cases hct
        exact absurd h (by simp [wOkT])
      · rw [if_neg h1] at hct
        by_cases h2 : c = "smtp"
        · rw [if_pos h2] at hct
          cases hct
          exact absurd h (by simp [wFailT])
        · rw [if_neg h2] at hct
          cases hct),
    sendWithFailover_exception_absorbed () "p" wThrowT wCfg1 wResolver
      (by
        intro i m h
        simp only [wThrowT, SendResult.exn.injEq] at h
        subst h
        decide)
      (by
        intro c t hct i m h
        simp only [wResolver] at hct
        by_cases h1 : c = "ses"
        · rw [if_pos h1] at hct
          cases hct
          exact absurd h (by simp [wOkT])
        · rw [if_neg h1] at hct
          by_cases h2 : c = "smtp"
          · rw [if_pos h2] at hct
            cases hct
            exact absurd h (by simp [wFailT])
          · rw [if_neg h2] at hct
            cases hct)⟩

end Nodemail
